import Mathlib

/-!
Verification development for the voltcompare interval-ingestion and tariff-costing
engine.  The TypeScript sources are shallowly embedded into Lean:

* JavaScript numbers are modelled as exact rationals (`ℚ`);
* a JavaScript `Date` used by the cost engines is modelled by the record of the
  only accessors the code calls (`getTime`, `getFullYear`, `getMonth`, `getHours`);
* JavaScript objects used as string-keyed maps are modelled as association lists
  in insertion order (string month keys such as "2025-01" are not array indices,
  so JS preserves insertion order), and `Array.prototype.sort` with an
  antisymmetric comparator is modelled by `List.insertionSort`;
* fallible parsing returns `Option`/`Except`.
-/

/-- Model of the JS `Date` as seen by the cost engines: the four accessors the
    code calls.  `time` is `getTime()` (ms since epoch), `year` is
    `getFullYear()`, `month` is the zero-indexed `getMonth()`, `hour` is
    `getHours()`. -/
structure Timestamp where
  time : ℤ
  year : ℤ
  month : ℕ
  hour : ℕ
deriving DecidableEq

/-- Embedding of `EnergyReading` from `src/types.ts`. -/
structure EnergyReading where
  timestamp : Timestamp
  value : ℚ
deriving DecidableEq

/-- Embedding of the `type` field of `Tariff` from `src/types.ts`. -/
inductive TariffType where
  | flat
  | tou
  | tiered
deriving DecidableEq

/-- Embedding of `TariffPeriod` from `src/types.ts`.  `summerRate` is the extra
    optional field read by `src/unnamed/part_001` (absent fields of a JS object
    read as `undefined`, modelled as `none`). -/
structure TariffPeriod where
  name : String
  startHour : ℕ
  endHour : ℕ
  rate : ℚ
  summerRate : Option ℚ := none
deriving DecidableEq

/-- Embedding of `Tariff` from `src/types.ts` (the fields the core reads). -/
structure Tariff where
  id : String
  name : String
  description : String
  type : TariffType
  periods : List TariffPeriod
  fixedMonthlyCharge : ℚ
deriving DecidableEq

/-- Embedding of `MonthlyBreakdown` from `src/types.ts`. -/
structure MonthlyBreakdown where
  monthName : String
  usage : ℚ
  cost : ℚ
deriving DecidableEq

/-- Embedding of `ComparisonResult` from `src/types.ts`. -/
structure ComparisonResult where
  tariffId : String
  tariffName : String
  totalUsage : ℚ
  totalCost : ℚ
  estimatedMonthlyCost : ℚ
  savingsVsCurrent : ℚ
  breakdown : List MonthlyBreakdown
deriving DecidableEq

/-- Embedding of `GasReading` from `src/types.ts`. -/
structure GasReading where
  timestamp : Timestamp
  value : ℚ
deriving DecidableEq

/-- Embedding of `GasTariff` from `src/types.ts`. -/
structure GasTariff where
  id : String
  name : String
  description : String
  baselineRate : ℚ
  overBaselineRate : ℚ
  baselineTherms : ℚ
  fixedMonthlyCharge : ℚ
deriving DecidableEq

/-- Embedding of `GasComparisonResult` from `src/types.ts`. -/
structure GasComparisonResult where
  tariffId : String
  tariffName : String
  totalUsage : ℚ
  totalCost : ℚ
  estimatedMonthlyCost : ℚ
  breakdown : List MonthlyBreakdown
deriving DecidableEq

/-- The JS template `` `${y}-${String(m + 1).padStart(2, '0')}` `` used as the
    per-month grouping key by both cost engines and the gas calculator. -/
def monthKey (year : ℤ) (month : ℕ) : String :=
  toString year ++ "-" ++
    (if month + 1 < 10 then "0" ++ toString (month + 1) else toString (month + 1))

/-- Placeholder used to make JS `array[0]` access total; every theorem that
    depends on `periods[0]` assumes `periods` is non-empty, in which case
    `headD` returns the real head. -/
def defaultPeriod : TariffPeriod := { name := "", startHour := 0, endHour := 0, rate := 0 }

/-- Placeholder tariff for total modelling of `allTariffs[0]`. -/
def defaultTariff : Tariff :=
  { id := "", name := "", description := "", type := .flat, periods := [], fixedMonthlyCharge := 0 }

/-- Placeholder reading for total modelling of `readings[0]` /
    `readings[readings.length - 1]`. -/
def defaultReading : EnergyReading := { timestamp := ⟨0, 0, 0, 0⟩, value := 0 }

/-- The time-of-use window test from both cost engines:
    `p.startHour <= p.endHour ? hour >= p.startHour && hour <= p.endHour
     : hour >= p.startHour || hour <= p.endHour`. -/
def hourMatches (p : TariffPeriod) (hour : ℕ) : Bool :=
  if p.startHour ≤ p.endHour then
    decide (p.startHour ≤ hour ∧ hour ≤ p.endHour)
  else
    decide (p.startHour ≤ hour ∨ hour ≤ p.endHour)

/-- Mutable per-reading state of `calculateDetailedCost` (both engines):
    `periodMap` (an insertion-ordered string-keyed object of
    `{usage, cost}` records), the running `totalCost`, the tiered
    `monthlyUsageCounter` and the tracked `currentMonth` (initially `-1`). -/
structure CalcState where
  periodMap : List (String × ℚ × ℚ)
  totalCost : ℚ
  monthlyUsageCounter : ℚ
  currentMonth : ℤ
deriving DecidableEq

/-- The net effect on `periodMap` of
    `if (!periodMap[k]) periodMap[k] = {usage: 0, cost: 0};
     periodMap[k].usage += du; periodMap[k].cost += dc;`. -/
def upsertPeriod (pm : List (String × ℚ × ℚ)) (k : String) (du dc : ℚ) :
    List (String × ℚ × ℚ) :=
  match pm with
  | [] => [(k, du, dc)]
  | (k', u, c) :: rest =>
      if k' = k then (k', u + du, c + dc) :: rest
      else (k', u, c) :: upsertPeriod rest k du dc

namespace CostEngine

/-- One iteration of the `readings.forEach` body of `calculateDetailedCost`.
    The two engines differ only in how the per-reading rate is chosen, so the
    body is parametrised by `rateFor tariff month hour counter`. -/
def step (rateFor : Tariff → ℕ → ℕ → ℚ → ℚ) (tariff : Tariff)
    (s : CalcState) (reading : EnergyReading) : CalcState :=
  let date := reading.timestamp
  let key := monthKey date.year date.month
  let counter := if (date.month : ℤ) ≠ s.currentMonth then 0 else s.monthlyUsageCounter
  let rate := rateFor tariff date.month date.hour counter
  let energyCost := reading.value * rate
  { periodMap := upsertPeriod s.periodMap key reading.value energyCost
    totalCost := s.totalCost + energyCost
    monthlyUsageCounter := counter + reading.value
    currentMonth := (date.month : ℤ) }

/-- Initial state of the `forEach` loop. -/
def initState : CalcState := { periodMap := [], totalCost := 0, monthlyUsageCounter := 0, currentMonth := -1 }

/-- The state after the whole `readings.forEach` loop. -/
def run (rateFor : Tariff → ℕ → ℕ → ℚ → ℚ) (readings : List EnergyReading)
    (tariff : Tariff) : CalcState :=
  readings.foldl (step rateFor tariff) initState

/-- Result record of `calculateDetailedCost`. -/
structure DetailedCost where
  totalCost : ℚ
  breakdown : List MonthlyBreakdown
deriving DecidableEq

/-- The breakdown construction: map `periodMap` entries to
    `{monthName, usage, cost + fixedMonthlyCharge}` and sort newest month
    first (`b.monthName.localeCompare(a.monthName)`, which on these
    `"YYYY-MM"` keys is descending code-point order). -/
def breakdownOf (fixedMonthlyCharge : ℚ) (pm : List (String × ℚ × ℚ)) :
    List MonthlyBreakdown :=
  List.insertionSort (fun a b : MonthlyBreakdown => b.monthName ≤ a.monthName)
    (pm.map fun e => { monthName := e.1, usage := e.2.1, cost := e.2.2 + fixedMonthlyCharge })

/-- Shared shape of `calculateDetailedCost` (both engines are this function,
    instantiated with their own rate selection). -/
def calculateDetailedCost (rateFor : Tariff → ℕ → ℕ → ℚ → ℚ)
    (readings : List EnergyReading) (tariff : Tariff) : DetailedCost :=
  let final := run rateFor readings tariff
  let breakdown := breakdownOf tariff.fixedMonthlyCharge final.periodMap
  { totalCost := final.totalCost + breakdown.length * tariff.fixedMonthlyCharge
    breakdown := breakdown }

/-- Shared shape of `compareTariffs` (identical text in both engines). -/
def compareTariffs (rateFor : Tariff → ℕ → ℕ → ℚ → ℚ)
    (readings : List EnergyReading) (currentTariffId : String)
    (allTariffs : List Tariff) : List ComparisonResult :=
  if readings.length = 0 then []
  else
    let currentTariff := (allTariffs.find? (fun t => t.id = currentTariffId)).getD
      (allTariffs.headD defaultTariff)
    let currentCalc := calculateDetailedCost rateFor readings currentTariff
    let msInReadings : ℚ :=
      (((readings.getLastD defaultReading).timestamp.time : ℚ) -
        ((readings.headD defaultReading).timestamp.time : ℚ))
    let daysInReadings := max (0.1 : ℚ) (msInReadings / (1000 * 60 * 60 * 24))
    let monthMultiplier := 30 / daysInReadings
    let currentEnergyOnly :=
      currentCalc.totalCost - currentCalc.breakdown.length * currentTariff.fixedMonthlyCharge
    let currentMonthlyEstimate :=
      currentEnergyOnly * monthMultiplier + currentTariff.fixedMonthlyCharge
    allTariffs.map fun t =>
      let calcRes := calculateDetailedCost rateFor readings t
      let energyCostOnly := calcRes.totalCost - calcRes.breakdown.length * t.fixedMonthlyCharge
      let estimatedMonthlyCost := energyCostOnly * monthMultiplier + t.fixedMonthlyCharge
      { tariffId := t.id
        tariffName := t.name
        totalUsage := readings.foldl (fun s r => s + r.value) (0 : ℚ)
        totalCost := calcRes.totalCost
        estimatedMonthlyCost := estimatedMonthlyCost
        savingsVsCurrent := currentMonthlyEstimate - estimatedMonthlyCost
        breakdown := calcRes.breakdown }

end CostEngine

namespace EnergyCalculator

/-- Per-reading rate selection of `src/services/energyCalculator.ts`
    (`calculateDetailedCost`, lines 30-58): three-tier seasonal-baseline
    pricing for `flat`/`tiered`, first-matching time-of-use window otherwise,
    with `periods[0].rate` as fallback. -/
def rateFor (tariff : Tariff) (month hour : ℕ) (monthlyUsageCounter : ℚ) : ℚ :=
  match tariff.type with
  | .flat | .tiered =>
      let isSummer := 5 ≤ month ∧ month ≤ 8
      let baseline : ℚ := if isSummer then 270 else 350
      let baseRate := (tariff.periods.headD defaultPeriod).rate
      if monthlyUsageCounter < baseline then baseRate
      else if monthlyUsageCounter < baseline * 4 then baseRate * 1.28
      else baseRate * 1.45
  | .tou =>
      match tariff.periods.find? (fun p => hourMatches p hour) with
      | some p => p.rate
      | none => (tariff.periods.headD defaultPeriod).rate

/-- Embedding of `calculateDetailedCost` from `src/services/energyCalculator.ts`. -/
def calculateDetailedCost : List EnergyReading → Tariff → CostEngine.DetailedCost :=
  CostEngine.calculateDetailedCost rateFor

/-- Embedding of `compareTariffs` from `src/services/energyCalculator.ts`. -/
def compareTariffs : List EnergyReading → String → List Tariff → List ComparisonResult :=
  CostEngine.compareTariffs rateFor

end EnergyCalculator

namespace Part001

/-- Embedding of `isSummerMonth` from `src/unnamed/part_001`. -/
def isSummerMonth (month : ℕ) : Bool :=
  decide (5 ≤ month ∧ month ≤ 8)

/-- Embedding of `getEffectiveRate` from `src/unnamed/part_001`:
    `period.summerRate != null && isSummerMonth(month) ? summerRate : rate`. -/
def getEffectiveRate (period : TariffPeriod) (month : ℕ) : ℚ :=
  match period.summerRate with
  | some sr => if isSummerMonth month then sr else period.rate
  | none => period.rate

/-- Per-reading rate selection of `calculateDetailedCost` in
    `src/unnamed/part_001` (two seasonal tiers at 1.24x, seasonal effective
    rates everywhere). -/
def rateFor (tariff : Tariff) (month hour : ℕ) (monthlyUsageCounter : ℚ) : ℚ :=
  match tariff.type with
  | .flat | .tiered =>
      let isSummer := isSummerMonth month
      let baseline : ℚ := if isSummer then 270 else 350
      let baseRate := getEffectiveRate (tariff.periods.headD defaultPeriod) month
      if monthlyUsageCounter < baseline then baseRate
      else baseRate * 1.24
  | .tou =>
      match tariff.periods.find? (fun p => hourMatches p hour) with
      | some p => getEffectiveRate p month
      | none => getEffectiveRate (tariff.periods.headD defaultPeriod) month

/-- Embedding of `calculateDetailedCost` from `src/unnamed/part_001`. -/
def calculateDetailedCost : List EnergyReading → Tariff → CostEngine.DetailedCost :=
  CostEngine.calculateDetailedCost rateFor

/-- Embedding of `compareTariffs` from `src/unnamed/part_001`. -/
def compareTariffs : List EnergyReading → String → List Tariff → List ComparisonResult :=
  CostEngine.compareTariffs rateFor

end Part001

namespace GasCalculator

/-- The month key of one gas reading: the `monthKey` template applied to its
    timestamp (inlined at each use in the source). -/
def gasKey (r : GasReading) : String := monthKey r.timestamp.year r.timestamp.month

/-- One iteration of the grouping loop of `calculateGasMonthlyBreakdown`
    (`src/services/gasCalculator.ts`): push the reading onto its month bucket,
    buckets in insertion order. -/
def groupStep (acc : List (String × List GasReading)) (r : GasReading) :
    List (String × List GasReading) :=
  match acc with
  | [] => [(gasKey r, [r])]
  | (k, rs) :: rest =>
      if k = gasKey r then (k, rs ++ [r]) :: rest
      else (k, rs) :: groupStep rest r

/-- The two-tier cost of one month's usage:
    `min(usage, baselineTherms)*baselineRate
     + max(0, usage - baselineTherms)*overBaselineRate + fixedMonthlyCharge`. -/
def monthCost (usage : ℚ) (tariff : GasTariff) : ℚ :=
  min usage tariff.baselineTherms * tariff.baselineRate +
    max 0 (usage - tariff.baselineTherms) * tariff.overBaselineRate +
    tariff.fixedMonthlyCharge

/-- Embedding of `calculateGasMonthlyBreakdown` from `src/services/gasCalculator.ts`. -/
def calculateGasMonthlyBreakdown (readings : List GasReading) (tariff : GasTariff) :
    List MonthlyBreakdown :=
  if readings.length = 0 then []
  else
    let monthlyData := readings.foldl groupStep []
    let breakdown := monthlyData.map fun e =>
      let usage := e.2.foldl (fun s r => s + r.value) (0 : ℚ)
      { monthName := e.1, usage := usage, cost := monthCost usage tariff }
    List.insertionSort (fun a b : MonthlyBreakdown => a.monthName ≤ b.monthName) breakdown

/-- Embedding of `calculateGasComparison` from `src/services/gasCalculator.ts`. -/
def calculateGasComparison (readings : List GasReading) (tariff : GasTariff) :
    GasComparisonResult :=
  let breakdown := calculateGasMonthlyBreakdown readings tariff
  let totalUsage := breakdown.foldl (fun s m => s + m.usage) (0 : ℚ)
  let totalCost := breakdown.foldl (fun s m => s + m.cost) (0 : ℚ)
  let estimatedMonthlyCost := if 0 < breakdown.length then totalCost / breakdown.length else 0
  { tariffId := tariff.id
    tariffName := tariff.name
    totalUsage := totalUsage
    totalCost := totalCost
    estimatedMonthlyCost := estimatedMonthlyCost
    breakdown := breakdown }

end GasCalculator

/-! ### Generic facts about the shared cost-engine fold -/

/-- Seasonal baseline used by both engines for `flat`/`tiered` tariffs. -/
def baselineFor (month : ℕ) : ℚ :=
  if 5 ≤ month ∧ month ≤ 8 then 270 else 350

theorem find?_first {α : Type _} (p : α → Bool) (pre : List α) (x : α) (post : List α)
    (hpre : ∀ q ∈ pre, p q = false) (hx : p x = true) :
    (pre ++ x :: post).find? p = some x := by
  induction pre with
  | nil => simpa [List.find?_cons_of_pos] using List.find?_cons_of_pos post hx
  | cons a as ih =>
      have ha : p a = false := hpre a (by simp)
      rw [List.cons_append, List.find?_cons_of_neg _ (by simp [ha])]
      exact ih (fun q hq => hpre q (by simp [hq]))

theorem step_congr (f g : Tariff → ℕ → ℕ → ℚ → ℚ) (t : Tariff)
    (h : ∀ m hr c, f t m hr c = g t m hr c) (s : CalcState) (r : EnergyReading) :
    CostEngine.step f t s r = CostEngine.step g t s r := by
  simp [CostEngine.step, h]

theorem foldl_step_congr (f g : Tariff → ℕ → ℕ → ℚ → ℚ) (t : Tariff)
    (h : ∀ m hr c, f t m hr c = g t m hr c) :
    ∀ (l : List EnergyReading) (s : CalcState),
      l.foldl (CostEngine.step f t) s = l.foldl (CostEngine.step g t) s := by
  intro l
  induction l with
  | nil => intro s; rfl
  | cons r rest ih =>
      intro s
      simp only [List.foldl_cons, step_congr f g t h s r, ih]

theorem calculateDetailedCost_congr (f g : Tariff → ℕ → ℕ → ℚ → ℚ) (t : Tariff)
    (h : ∀ m hr c, f t m hr c = g t m hr c) (readings : List EnergyReading) :
    CostEngine.calculateDetailedCost f readings t = CostEngine.calculateDetailedCost g readings t := by
  simp only [CostEngine.calculateDetailedCost, CostEngine.run,
    foldl_step_congr f g t h readings CostEngine.initState]

/-- For a `tou` tariff none of whose periods sets `summerRate`, the two
    engines select the same per-reading rate. -/
theorem rate_agree_tou (t : Tariff) (ht : t.type = .tou)
    (hs : ∀ p ∈ t.periods, p.summerRate = none) (m h : ℕ) (c : ℚ) :
    EnergyCalculator.rateFor t m h c = Part001.rateFor t m h c := by
  simp only [EnergyCalculator.rateFor, Part001.rateFor, ht]
  cases hfind : t.periods.find? (fun p => hourMatches p h) with
  | some p =>
      have hp := List.mem_of_find?_eq_some hfind
      simp [Part001.getEffectiveRate, hs p hp]
  | none =>
      cases hper : t.periods with
      | nil => simp [Part001.getEffectiveRate, defaultPeriod]
      | cons p ps =>
          have hnone : p.summerRate = none := hs p (by rw [hper]; exact List.mem_cons_self p ps)
          simp [Part001.getEffectiveRate, hper, hnone]

/-! ### C10: the two cost engines are not extensionally equal -/

/-- Input exhibiting the divergence: a flat tariff at rate 1 with no fixed
    charge, and a January month whose usage crosses the 350 kWh winter
    baseline between two readings. -/
def c10Tariff : Tariff :=
  { id := "t", name := "t", description := "", type := .flat,
    periods := [{ name := "p", startHour := 0, endHour := 23, rate := 1 }],
    fixedMonthlyCharge := 0 }

/-- Two January readings totalling 450 kWh: the second one is priced above
    the winter baseline, where the engines' tier multipliers differ
    (1.28 vs 1.24). -/
def c10Readings : List EnergyReading :=
  [{ timestamp := ⟨0, 2024, 0, 0⟩, value := 350 },
   { timestamp := ⟨1, 2024, 0, 1⟩, value := 100 }]

/-- C10 (counterexample): the two implementations of `calculateDetailedCost`
    disagree on a concrete flat-tariff input — `src/services/energyCalculator.ts`
    charges the above-baseline reading at 1.28x (total 478) while
    `src/unnamed/part_001` charges it at 1.24x (total 474). -/
theorem c10_counterexample :
    (EnergyCalculator.calculateDetailedCost c10Readings c10Tariff).totalCost = 478 ∧
    (Part001.calculateDetailedCost c10Readings c10Tariff).totalCost = 474 ∧
    EnergyCalculator.calculateDetailedCost c10Readings c10Tariff ≠
      Part001.calculateDetailedCost c10Readings c10Tariff := by
  refine ⟨?_, ?_, ?_⟩
  · norm_num [EnergyCalculator.calculateDetailedCost, CostEngine.calculateDetailedCost,
      CostEngine.run, CostEngine.step, CostEngine.initState, CostEngine.breakdownOf,
      EnergyCalculator.rateFor, hourMatches, upsertPeriod, monthKey, c10Tariff, c10Readings,
      List.insertionSort, List.orderedInsert]
  · norm_num [Part001.calculateDetailedCost, CostEngine.calculateDetailedCost,
      CostEngine.run, CostEngine.step, CostEngine.initState, CostEngine.breakdownOf,
      Part001.rateFor, Part001.getEffectiveRate, Part001.isSummerMonth, hourMatches,
      upsertPeriod, monthKey, c10Tariff, c10Readings, List.insertionSort, List.orderedInsert]
  · intro heq
    have h1 : (EnergyCalculator.calculateDetailedCost c10Readings c10Tariff).totalCost = 478 := by
      norm_num [EnergyCalculator.calculateDetailedCost, CostEngine.calculateDetailedCost,
        CostEngine.run, CostEngine.step, CostEngine.initState, CostEngine.breakdownOf,
        EnergyCalculator.rateFor, hourMatches, upsertPeriod, monthKey, c10Tariff, c10Readings,
        List.insertionSort, List.orderedInsert]
    have h2 : (Part001.calculateDetailedCost c10Readings c10Tariff).totalCost = 474 := by
      norm_num [Part001.calculateDetailedCost, CostEngine.calculateDetailedCost,
        CostEngine.run, CostEngine.step, CostEngine.initState, CostEngine.breakdownOf,
        Part001.rateFor, Part001.getEffectiveRate, Part001.isSummerMonth, hourMatches,
        upsertPeriod, monthKey, c10Tariff, c10Readings, List.insertionSort, List.orderedInsert]
    rw [heq, h2] at h1
    norm_num at h1

/-- C10 (amended): the two engines agree exactly on the fragment where their
    rate selection coincides — `tou` tariffs none of whose periods sets
    `summerRate` — both for `calculateDetailedCost` and for `compareTariffs`
    over rosters of such tariffs; they differ on `flat`/`tiered` usage above
    the seasonal baseline (1.28x/1.45x vs a single 1.24x tier) and on summer
    readings of periods with `summerRate` set. -/
theorem c10_amended :
    (∀ (readings : List EnergyReading) (t : Tariff), t.type = .tou →
      (∀ p ∈ t.periods, p.summerRate = none) →
      EnergyCalculator.calculateDetailedCost readings t = Part001.calculateDetailedCost readings t) ∧
    (∀ (readings : List EnergyReading) (cid : String) (roster : List Tariff),
      (∀ t ∈ roster, t.type = .tou ∧ ∀ p ∈ t.periods, p.summerRate = none) →
      EnergyCalculator.compareTariffs readings cid roster = Part001.compareTariffs readings cid roster) := by
  constructor
  · intro readings t ht hs
    exact calculateDetailedCost_congr _ _ t (fun m hr c => rate_agree_tou t ht hs m hr c) readings
  · intro readings cid roster hall
    by_cases hlen : readings.length = 0
    · simp [EnergyCalculator.compareTariffs, Part001.compareTariffs, CostEngine.compareTariffs, hlen]
    · cases roster with
      | nil =>
          simp [EnergyCalculator.compareTariffs, Part001.compareTariffs,
            CostEngine.compareTariffs, hlen]
      | cons t0 ts =>
          have hcalc : ∀ t ∈ t0 :: ts,
              CostEngine.calculateDetailedCost EnergyCalculator.rateFor readings t =
              CostEngine.calculateDetailedCost Part001.rateFor readings t := by
            intro t htm
            exact calculateDetailedCost_congr _ _ t
              (fun m hr c => rate_agree_tou t (hall t htm).1 (hall t htm).2 m hr c) readings
          have hcur : (((t0 :: ts).find? (fun t => t.id = cid)).getD ((t0 :: ts).headD defaultTariff)) ∈ t0 :: ts := by
            cases hf : (t0 :: ts).find? (fun t => t.id = cid) with
            | some t => simpa [hf] using List.mem_of_find?_eq_some hf
            | none => simp [hf]
          have hcalcCur :
              CostEngine.calculateDetailedCost EnergyCalculator.rateFor readings
                (((t0 :: ts).find? (fun t => t.id = cid)).getD ((t0 :: ts).headD defaultTariff)) =
              CostEngine.calculateDetailedCost Part001.rateFor readings
                (((t0 :: ts).find? (fun t => t.id = cid)).getD ((t0 :: ts).headD defaultTariff)) :=
            hcalc _ hcur
          simp only [EnergyCalculator.compareTariffs, Part001.compareTariffs,
            CostEngine.compareTariffs, if_neg hlen, hcalcCur]
          exact List.map_congr_left (fun t htm => by rw [hcalc t htm])

/-- Concrete `tou` tariff (no `summerRate`) used to instantiate `c10_amended`. -/
def c10TouTariff : Tariff :=
  { id := "tou", name := "tou", description := "", type := .tou,
    periods := [{ name := "peak", startHour := 16, endHour := 20, rate := 2 }],
    fixedMonthlyCharge := 5 }

theorem c10_amended_witness :
    EnergyCalculator.calculateDetailedCost c10Readings c10TouTariff =
      Part001.calculateDetailedCost c10Readings c10TouTariff ∧
    EnergyCalculator.compareTariffs c10Readings "tou" [c10TouTariff] =
      Part001.compareTariffs c10Readings "tou" [c10TouTariff] := by
  constructor
  · exact c10_amended.1 c10Readings c10TouTariff rfl
      (fun p hp => by
        simp only [c10TouTariff] at hp
        simp only [List.mem_singleton] at hp
        rw [hp])
  · exact c10_amended.2 c10Readings "tou" [c10TouTariff]
      (fun t ht => by
        simp only [List.mem_singleton] at ht
        subst ht
        exact ⟨rfl, fun p hp => by
          simp only [c10TouTariff] at hp
          simp only [List.mem_singleton] at hp
          rw [hp]⟩)

/-! ### C2: time-of-use window matching -/

/-- C2: for `tou` tariffs the per-reading rate is chosen by the first period
    (in declaration order) whose hour range contains the reading's hour; a
    period with `startHour <= endHour` matches exactly `startHour..endHour`
    inclusive, one with `startHour > endHour` matches exactly the wraparound
    set `hour >= startHour or hour <= endHour`; with no match, `periods[0]`'s
    (effective) rate is the fallback — stated for both engines, with the
    spec's 16-20 and 21-15 windows characterised explicitly. -/
theorem c2_tou_window_match :
    (∀ (p : TariffPeriod) (h : ℕ), hourMatches p h = true ↔
      ((p.startHour ≤ p.endHour ∧ p.startHour ≤ h ∧ h ≤ p.endHour) ∨
       (p.endHour < p.startHour ∧ (p.startHour ≤ h ∨ h ≤ p.endHour)))) ∧
    (∀ (t : Tariff) (m h : ℕ) (c : ℚ) (pre : List TariffPeriod) (p : TariffPeriod)
        (post : List TariffPeriod), t.type = .tou → t.periods = pre ++ p :: post →
      (∀ q ∈ pre, hourMatches q h = false) → hourMatches p h = true →
      EnergyCalculator.rateFor t m h c = p.rate ∧
      Part001.rateFor t m h c = Part001.getEffectiveRate p m) ∧
    (∀ (t : Tariff) (m h : ℕ) (c : ℚ) (p : TariffPeriod) (ps : List TariffPeriod),
      t.type = .tou → t.periods = p :: ps →
      (∀ q ∈ t.periods, hourMatches q h = false) →
      EnergyCalculator.rateFor t m h c = p.rate ∧
      Part001.rateFor t m h c = Part001.getEffectiveRate p m) ∧
    (∀ h : ℕ, hourMatches { name := "peak", startHour := 16, endHour := 20, rate := 0 } h = true ↔
      (16 ≤ h ∧ h ≤ 20)) ∧
    (∀ h : ℕ, hourMatches { name := "wrap", startHour := 21, endHour := 15, rate := 0 } h = true ↔
      (21 ≤ h ∨ h ≤ 15)) := by
  refine ⟨?_, ?_, ?_, ?_, ?_⟩
  · intro p h
    by_cases hse : p.startHour ≤ p.endHour
    · simp only [hourMatches, if_pos hse, decide_eq_true_eq]
      constructor
      · exact fun hh => Or.inl ⟨hse, hh⟩
      · rintro (⟨_, hh⟩ | ⟨hlt, _⟩)
        · exact hh
        · omega
    · simp only [hourMatches, if_neg hse, decide_eq_true_eq]
      constructor
      · exact fun hh => Or.inr ⟨by omega, hh⟩
      · rintro (⟨hle, _⟩ | ⟨_, hh⟩)
        · omega
        · exact hh
  · intro t m h c pre p post ht hper hpre hp
    have hfind : t.periods.find? (fun q => hourMatches q h) = some p := by
      rw [hper]
      exact find?_first _ pre p post hpre hp
    constructor
    · simp [EnergyCalculator.rateFor, ht, hfind]
    · simp [Part001.rateFor, ht, hfind]
  · intro t m h c p ps ht hper hnone
    have hfind : (p :: ps).find? (fun q => hourMatches q h) = none := by
      rw [← hper, List.find?_eq_none]
      exact fun q hq => by simp [hnone q hq]
    constructor
    · simp [EnergyCalculator.rateFor, ht, hper, hfind]
    · simp [Part001.rateFor, ht, hper, hfind]
  · intro h
    simp only [hourMatches]
    norm_num
  · intro h
    simp only [hourMatches]
    norm_num
    try omega

theorem c2_tou_window_match_witness :
    EnergyCalculator.rateFor c10TouTariff 0 17 0 = 2 ∧
    Part001.rateFor c10TouTariff 0 17 0 = 2 ∧
    EnergyCalculator.rateFor c10TouTariff 0 3 0 = 2 := by
  refine ⟨?_, ?_, ?_⟩
  · exact (c2_tou_window_match.2.1 c10TouTariff 0 17 0 []
      { name := "peak", startHour := 16, endHour := 20, rate := 2 } [] rfl rfl
      (by intro q hq; simp at hq) (by decide)).1
  · have := (c2_tou_window_match.2.1 c10TouTariff 0 17 0 []
      { name := "peak", startHour := 16, endHour := 20, rate := 2 } [] rfl rfl
      (by intro q hq; simp at hq) (by decide)).2
    rw [this]; rfl
  · exact (c2_tou_window_match.2.2.1 c10TouTariff 0 3 0
      { name := "peak", startHour := 16, endHour := 20, rate := 2 } [] rfl rfl
      (by intro q hq; simp [c10TouTariff] at hq; rw [hq]; decide)).1

/-! ### C4: seasonal effective-rate override -/

/-- C4: `getEffectiveRate` (the engine of `src/unnamed/part_001`) returns
    `summerRate` exactly when it is set and the zero-indexed month is in 5..8,
    and `rate` otherwise; every rate that engine charges — the `flat`/`tiered`
    base rate and the `tou` selected-or-fallback rate — factors through
    `getEffectiveRate`; and the gas calculator's per-month cost is a function
    of usage and tariff alone, with no seasonal override. -/
theorem c4_effective_rate :
    (∀ (p : TariffPeriod) (m : ℕ) (sr : ℚ), p.summerRate = some sr → 5 ≤ m → m ≤ 8 →
      Part001.getEffectiveRate p m = sr) ∧
    (∀ (p : TariffPeriod) (m : ℕ), p.summerRate = none → Part001.getEffectiveRate p m = p.rate) ∧
    (∀ (p : TariffPeriod) (m : ℕ), ¬(5 ≤ m ∧ m ≤ 8) → Part001.getEffectiveRate p m = p.rate) ∧
    (∀ (t : Tariff) (m h : ℕ) (c : ℚ), t.type = .flat ∨ t.type = .tiered →
      Part001.rateFor t m h c =
        (if c < baselineFor m then Part001.getEffectiveRate (t.periods.headD defaultPeriod) m
         else Part001.getEffectiveRate (t.periods.headD defaultPeriod) m * 1.24)) ∧
    (∀ (t : Tariff) (m h : ℕ) (c : ℚ), t.type = .tou →
      Part001.rateFor t m h c = Part001.getEffectiveRate
        ((t.periods.find? (fun p => hourMatches p h)).getD (t.periods.headD defaultPeriod)) m) ∧
    (∀ (readings : List GasReading) (tariff : GasTariff) (e : MonthlyBreakdown),
      e ∈ GasCalculator.calculateGasMonthlyBreakdown readings tariff →
      e.cost = GasCalculator.monthCost e.usage tariff) := by
  refine ⟨?_, ?_, ?_, ?_, ?_, ?_⟩
  · intro p m sr hsr h5 h8
    simp [Part001.getEffectiveRate, hsr, Part001.isSummerMonth, h5, h8]
  · intro p m hnone
    simp [Part001.getEffectiveRate, hnone]
  · intro p m hm
    cases hsr : p.summerRate with
    | none => simp [Part001.getEffectiveRate, hsr]
    | some sr => simp [Part001.getEffectiveRate, hsr, Part001.isSummerMonth, hm]
  · intro t m h c ht
    have hb : baselineFor m = if Part001.isSummerMonth m then (270 : ℚ) else 350 := by
      simp [baselineFor, Part001.isSummerMonth]
    rcases ht with ht | ht <;>
      simp only [Part001.rateFor, ht, hb]
  · intro t m h c ht
    simp only [Part001.rateFor, ht]
    cases hfind : t.periods.find? (fun p => hourMatches p h) <;> simp [hfind]
  · intro readings tariff e he
    simp only [GasCalculator.calculateGasMonthlyBreakdown] at he
    by_cases hlen : readings.length = 0
    · simp [hlen] at he
    · rw [if_neg hlen] at he
      have he' := (List.perm_insertionSort
        (fun a b : MonthlyBreakdown => a.monthName ≤ b.monthName) _).mem_iff.mp he
      rcases List.mem_map.mp he' with ⟨g, _, hge⟩
      rw [← hge]

theorem c4_effective_rate_witness :
    Part001.getEffectiveRate { name := "s", startHour := 0, endHour := 23, rate := 1/2, summerRate := some (3/4) } 6 = 3/4 ∧
    Part001.getEffectiveRate { name := "s", startHour := 0, endHour := 23, rate := 1/2, summerRate := some (3/4) } 1 = 1/2 ∧
    Part001.rateFor c10TouTariff 6 17 0 = 2 := by
  refine ⟨?_, ?_, ?_⟩
  · exact c4_effective_rate.1 _ 6 (3/4) rfl (by norm_num) (by norm_num)
  · exact c4_effective_rate.2.2.1 _ 1 (by norm_num)
  · have := c4_effective_rate.2.2.2.2.1 c10TouTariff 6 17 0 rfl
    rw [this]; rfl

/-! ### C5: the monthly reset is keyed on month-of-year only -/

/-- Flat tariff (rate 1, no fixed charge) for the multi-year December dataset. -/
def c5Tariff : Tariff :=
  { id := "e1", name := "e1", description := "", type := .flat,
    periods := [{ name := "p", startHour := 0, endHour := 23, rate := 1 }],
    fixedMonthlyCharge := 0 }

/-- December 2024 reading (350 kWh) followed directly by a December 2025
    reading (10 kWh): different years, same `getMonth()`. -/
def c5Readings : List EnergyReading :=
  [{ timestamp := ⟨0, 2024, 11, 0⟩, value := 350 },
   { timestamp := ⟨1, 2025, 11, 0⟩, value := 10 }]

/-- C5: the running monthly usage counter resets exactly when the reading's
    month-of-year differs from the tracked month — never on a year change —
    so consecutive readings sharing a month-of-year share one counter; in
    particular a dataset going from December 2024 straight into December 2025
    treats the second December as a continuation: its 10 kWh are priced at
    tier 2 (the counter already stands at 350), giving 350 + 10 × 1.28 = 362.8
    instead of the 360 a year-aware reset would give. -/
theorem c5_month_only_reset :
    (∀ (f : Tariff → ℕ → ℕ → ℚ → ℚ) (t : Tariff) (s : CalcState) (r : EnergyReading),
      (CostEngine.step f t s r).monthlyUsageCounter =
        (if (r.timestamp.month : ℤ) = s.currentMonth then s.monthlyUsageCounter else 0) + r.value) ∧
    (∀ (f : Tariff → ℕ → ℕ → ℚ → ℚ) (t : Tariff) (s : CalcState) (r : EnergyReading),
      (CostEngine.step f t s r).currentMonth = (r.timestamp.month : ℤ)) ∧
    (∀ (f : Tariff → ℕ → ℕ → ℚ → ℚ) (t : Tariff) (s : CalcState) (r r' : EnergyReading),
      r.timestamp.month = r'.timestamp.month →
      (CostEngine.step f t (CostEngine.step f t s r) r').monthlyUsageCounter =
        (CostEngine.step f t s r).monthlyUsageCounter + r'.value) ∧
    (EnergyCalculator.calculateDetailedCost c5Readings c5Tariff).totalCost = 362.8 := by
  refine ⟨?_, ?_, ?_, ?_⟩
  · intro f t s r
    simp only [CostEngine.step]
    by_cases h : (r.timestamp.month : ℤ) = s.currentMonth <;> simp [h]
  · intro f t s r
    simp [CostEngine.step]
  · intro f t s r r' hm
    simp [CostEngine.step, hm]
  · norm_num [EnergyCalculator.calculateDetailedCost, CostEngine.calculateDetailedCost,
      CostEngine.run, CostEngine.step, CostEngine.initState, CostEngine.breakdownOf,
      EnergyCalculator.rateFor, hourMatches, upsertPeriod, monthKey, c5Tariff, c5Readings,
      List.insertionSort, List.orderedInsert]

theorem c5_month_only_reset_witness :
    (CostEngine.step EnergyCalculator.rateFor c5Tariff
        (CostEngine.step EnergyCalculator.rateFor c5Tariff CostEngine.initState
          { timestamp := ⟨0, 2024, 11, 0⟩, value := 350 })
        { timestamp := ⟨1, 2025, 11, 0⟩, value := 10 }).monthlyUsageCounter =
      (CostEngine.step EnergyCalculator.rateFor c5Tariff CostEngine.initState
        { timestamp := ⟨0, 2024, 11, 0⟩, value := 350 }).monthlyUsageCounter + 10 :=
  c5_month_only_reset.2.2.1 EnergyCalculator.rateFor c5Tariff CostEngine.initState
    { timestamp := ⟨0, 2024, 11, 0⟩, value := 350 }
    { timestamp := ⟨1, 2025, 11, 0⟩, value := 10 } rfl

/-! ### C3: monthly-estimate scaling in `compareTariffs` -/

/-- Flat tariff, rate 1, fixed monthly charge 10, for the 10-day scenario. -/
def c3Tariff : Tariff :=
  { id := "e1", name := "e1", description := "", type := .flat,
    periods := [{ name := "p", startHour := 0, endHour := 23, rate := 1 }],
    fixedMonthlyCharge := 10 }

/-- Two January readings spanning exactly 10 days (864000000 ms), 150 kWh. -/
def c3Readings : List EnergyReading :=
  [{ timestamp := ⟨0, 2024, 0, 0⟩, value := 100 },
   { timestamp := ⟨864000000, 2024, 0, 5⟩, value := 50 }]

/-- C3: for a non-empty reading list, `compareTariffs` computes, per tariff,
    `daysInReadings = max(0.1, span-in-days)`, `monthMultiplier = 30 / days`,
    an energy-only cost of `totalCost - breakdownMonths x fixedMonthlyCharge`,
    `estimatedMonthlyCost = energyOnly x multiplier + one fixed charge`, and
    `savingsVsCurrent = currentEstimate - thisEstimate` (positive = cheaper);
    over the concrete 10-day window the energy cost is scaled by 3 while the
    fixed charge is added once (150 x 3 + 10 = 460, not 160 x 3 = 480). -/
theorem c3_compare_scaling :
    (∀ (readings : List EnergyReading) (cid : String) (roster : List Tariff),
      readings ≠ [] →
      EnergyCalculator.compareTariffs readings cid roster =
        roster.map (fun t =>
          let currentTariff := (roster.find? (fun u => u.id = cid)).getD (roster.headD defaultTariff)
          let currentCalc := EnergyCalculator.calculateDetailedCost readings currentTariff
          let daysInReadings := max (0.1 : ℚ)
            ((((readings.getLastD defaultReading).timestamp.time : ℚ) -
              ((readings.headD defaultReading).timestamp.time : ℚ)) / (1000 * 60 * 60 * 24))
          let monthMultiplier := (30 : ℚ) / daysInReadings
          let currentEst := (currentCalc.totalCost -
              currentCalc.breakdown.length * currentTariff.fixedMonthlyCharge) * monthMultiplier +
            currentTariff.fixedMonthlyCharge
          let calcRes := EnergyCalculator.calculateDetailedCost readings t
          let est := (calcRes.totalCost - calcRes.breakdown.length * t.fixedMonthlyCharge) *
              monthMultiplier + t.fixedMonthlyCharge
          { tariffId := t.id
            tariffName := t.name
            totalUsage := readings.foldl (fun s r => s + r.value) (0 : ℚ)
            totalCost := calcRes.totalCost
            estimatedMonthlyCost := est
            savingsVsCurrent := currentEst - est
            breakdown := calcRes.breakdown })) ∧
    (EnergyCalculator.compareTariffs c3Readings "e1" [c3Tariff]).map
      (fun r => r.estimatedMonthlyCost) = [460] := by
  constructor
  · intro readings cid roster hne
    have hlen : ¬readings.length = 0 := by
      simpa [List.length_eq_zero] using hne
    simp only [EnergyCalculator.compareTariffs, EnergyCalculator.calculateDetailedCost,
      CostEngine.compareTariffs, if_neg hlen]
  · have hmax : max (0.1 : ℚ) ((864000000 : ℚ) / (1000 * 60 * 60 * 24)) = 10 := by
      rw [show ((864000000 : ℚ) / (1000 * 60 * 60 * 24)) = 10 by norm_num]
      rw [max_eq_right (by norm_num)]
    norm_num [EnergyCalculator.compareTariffs, CostEngine.compareTariffs,
      EnergyCalculator.calculateDetailedCost, CostEngine.calculateDetailedCost,
      CostEngine.run, CostEngine.step, CostEngine.initState, CostEngine.breakdownOf,
      EnergyCalculator.rateFor, hourMatches, upsertPeriod, monthKey, c3Tariff, c3Readings,
      List.insertionSort, List.orderedInsert, hmax]

theorem c3_compare_scaling_witness :
    (EnergyCalculator.compareTariffs c3Readings "e1" [c3Tariff]).length = 1 := by
  rw [c3_compare_scaling.1 c3Readings "e1" [c3Tariff] (by simp [c3Readings])]
  simp

/-! ### C9: gas comparison averages over distinct months, no scaling law -/

/-- Bucket stored for key `k` in the grouping accumulator (empty if absent). -/
def bucketsOf (acc : List (String × List GasReading)) (k : String) : List GasReading :=
  ((acc.find? (fun e => e.1 = k)).map (fun e => e.2)).getD []

theorem groupStep_keys (acc : List (String × List GasReading)) (r : GasReading) :
    (GasCalculator.groupStep acc r).map Prod.fst =
      (if GasCalculator.gasKey r ∈ acc.map Prod.fst then acc.map Prod.fst
       else acc.map Prod.fst ++ [GasCalculator.gasKey r]) := by
  induction acc with
  | nil => simp [GasCalculator.groupStep]
  | cons e rest ih =>
      obtain ⟨k', rs⟩ := e
      by_cases hk : k' = GasCalculator.gasKey r
      · simp [GasCalculator.groupStep, hk]
      · have hk' : ¬GasCalculator.gasKey r = k' := fun h => hk h.symm
        simp only [GasCalculator.groupStep, if_neg hk, List.map_cons, ih]
        by_cases hmem : GasCalculator.gasKey r ∈ rest.map Prod.fst
        · simp [hmem, hk']
        · simp [hmem, hk']

theorem bucketsOf_cons (k' : String) (rs : List GasReading)
    (rest : List (String × List GasReading)) (k : String) :
    bucketsOf ((k', rs) :: rest) k = if k' = k then rs else bucketsOf rest k := by
  by_cases h : k' = k
  · simp [bucketsOf, List.find?, h]
  · simp [bucketsOf, List.find?, h]

theorem groupStep_bucketsOf (acc : List (String × List GasReading)) (r : GasReading)
    (k : String) :
    bucketsOf (GasCalculator.groupStep acc r) k =
      bucketsOf acc k ++ (if GasCalculator.gasKey r = k then [r] else []) := by
  induction acc with
  | nil =>
      by_cases hk : GasCalculator.gasKey r = k
      · simp [GasCalculator.groupStep, bucketsOf, hk]
      · simp [GasCalculator.groupStep, bucketsOf, hk]
  | cons e rest ih =>
      obtain ⟨k', rs⟩ := e
      by_cases hk : k' = GasCalculator.gasKey r
      · simp only [GasCalculator.groupStep, if_pos hk]
        by_cases hkk : k' = k
        · have hgk : GasCalculator.gasKey r = k := by rw [← hk, hkk]
          simp [bucketsOf_cons, hkk, hgk]
        · have hgk : ¬GasCalculator.gasKey r = k := by rw [← hk]; exact hkk
          simp [bucketsOf_cons, hkk, hgk]
      · simp only [GasCalculator.groupStep, if_neg hk]
        by_cases hkk : k' = k
        · have hgk : ¬GasCalculator.gasKey r = k := by
            intro h; exact hk (by rw [h, hkk])
          simp [bucketsOf_cons, hkk, hgk]
        · rw [bucketsOf_cons, if_neg hkk, bucketsOf_cons, if_neg hkk]
          exact ih

theorem foldl_groupStep_bucketsOf (l : List GasReading) :
    ∀ (acc : List (String × List GasReading)) (k : String),
      bucketsOf (l.foldl GasCalculator.groupStep acc) k =
        bucketsOf acc k ++ l.filter (fun r => GasCalculator.gasKey r = k) := by
  induction l with
  | nil => intro acc k; simp
  | cons r rest ih =>
      intro acc k
      rw [List.foldl_cons, ih, groupStep_bucketsOf]
      by_cases hk : GasCalculator.gasKey r = k
      · simp [hk]
      · simp [hk]

theorem foldl_groupStep_keys_mem (l : List GasReading) :
    ∀ (acc : List (String × List GasReading)) (k : String),
      (k ∈ (l.foldl GasCalculator.groupStep acc).map Prod.fst ↔
        k ∈ acc.map Prod.fst ∨ k ∈ l.map GasCalculator.gasKey) := by
  induction l with
  | nil => intro acc k; simp
  | cons r rest ih =>
      intro acc k
      rw [List.foldl_cons, ih, groupStep_keys]
      by_cases hmem : GasCalculator.gasKey r ∈ acc.map Prod.fst
      · rw [if_pos hmem]
        constructor
        · rintro (h | h)
          · exact Or.inl h
          · exact Or.inr (by simp [h])
        · rintro (h | h)
          · exact Or.inl h
          · rcases List.mem_cons.mp h with h | h
            · exact Or.inl (h ▸ hmem)
            · exact Or.inr (by simp [h])
      · rw [if_neg hmem]
        simp only [List.mem_append, List.mem_singleton, List.map_cons, List.mem_cons]
        tauto

theorem foldl_groupStep_keys_nodup (l : List GasReading) :
    ∀ (acc : List (String × List GasReading)), (acc.map Prod.fst).Nodup →
      ((l.foldl GasCalculator.groupStep acc).map Prod.fst).Nodup := by
  induction l with
  | nil => intro acc h; simpa using h
  | cons r rest ih =>
      intro acc h
      rw [List.foldl_cons]
      apply ih
      rw [groupStep_keys]
      by_cases hmem : GasCalculator.gasKey r ∈ acc.map Prod.fst
      · rwa [if_pos hmem]
      · rw [if_neg hmem]
        rw [List.nodup_append]
        exact ⟨h, List.nodup_singleton _, by simpa using hmem⟩

theorem bucketsOf_of_mem (acc : List (String × List GasReading))
    (hnd : (acc.map Prod.fst).Nodup) (k : String) (b : List GasReading)
    (hmem : (k, b) ∈ acc) : bucketsOf acc k = b := by
  induction acc with
  | nil => simp at hmem
  | cons e rest ih =>
      obtain ⟨k', b'⟩ := e
      rcases List.mem_cons.mp hmem with heq | hmem'
      · injection heq with h1 h2
        subst h1
        subst h2
        simp [bucketsOf_cons]
      · have hk' : k' ≠ k := by
          intro hkk
          have hkm : k ∈ rest.map Prod.fst := List.mem_map.mpr ⟨(k, b), hmem', rfl⟩
          rw [List.map_cons, List.nodup_cons] at hnd
          exact hnd.1 (hkk ▸ hkm)
        rw [bucketsOf_cons, if_neg hk']
        exact ih (by rw [List.map_cons, List.nodup_cons] at hnd; exact hnd.2) hmem'

theorem foldl_add_map {α : Type _} (f : α → ℚ) (l : List α) :
    ∀ a : ℚ, l.foldl (fun s x => s + f x) a = a + (l.map f).sum := by
  induction l with
  | nil => intro a; simp
  | cons x xs ih =>
      intro a
      rw [List.foldl_cons, ih]
      simp [add_assoc]

/-- C9: `calculateGasComparison` applies no 30-day scaling law: the breakdown
    has one entry per distinct calendar month of the input, each month's cost
    is `min(usage, baselineTherms) x baselineRate + max(0, usage -
    baselineTherms) x overBaselineRate + one fixedMonthlyCharge` of that
    month's summed usage, `totalCost` is the sum of the monthly costs, and
    `estimatedMonthlyCost` is `totalCost` divided by the number of distinct
    months observed. -/
theorem c9_gas_monthly_average (readings : List GasReading) (tariff : GasTariff)
    (hne : readings ≠ []) :
    (GasCalculator.calculateGasComparison readings tariff).breakdown.length =
      ((readings.map GasCalculator.gasKey).dedup).length ∧
    (∀ e ∈ (GasCalculator.calculateGasComparison readings tariff).breakdown,
      e.cost = GasCalculator.monthCost e.usage tariff ∧
      e.usage = ((readings.filter (fun r => GasCalculator.gasKey r = e.monthName)).map
        (fun r => r.value)).sum) ∧
    (GasCalculator.calculateGasComparison readings tariff).totalCost =
      ((GasCalculator.calculateGasComparison readings tariff).breakdown.map
        (fun m => m.cost)).sum ∧
    (GasCalculator.calculateGasComparison readings tariff).estimatedMonthlyCost =
      (GasCalculator.calculateGasComparison readings tariff).totalCost /
        ((GasCalculator.calculateGasComparison readings tariff).breakdown.length : ℚ) := by
  have hlen0 : ¬readings.length = 0 := by simpa [List.length_eq_zero] using hne
  have hnd : ((readings.foldl GasCalculator.groupStep []).map Prod.fst).Nodup :=
    foldl_groupStep_keys_nodup readings [] (by simp)
  have hkeys : ∀ k, k ∈ (readings.foldl GasCalculator.groupStep []).map Prod.fst ↔
      k ∈ readings.map GasCalculator.gasKey := by
    intro k
    simpa [bucketsOf] using foldl_groupStep_keys_mem readings [] k
  have hbd : GasCalculator.calculateGasMonthlyBreakdown readings tariff =
      List.insertionSort (fun a b : MonthlyBreakdown => a.monthName ≤ b.monthName)
        ((readings.foldl GasCalculator.groupStep []).map (fun e =>
          { monthName := e.1
            usage := e.2.foldl (fun s r => s + r.value) (0 : ℚ)
            cost := GasCalculator.monthCost (e.2.foldl (fun s r => s + r.value) (0 : ℚ)) tariff })) := by
    simp only [GasCalculator.calculateGasMonthlyBreakdown, if_neg hlen0]
  have hperm := List.perm_insertionSort
    (fun a b : MonthlyBreakdown => a.monthName ≤ b.monthName)
    ((readings.foldl GasCalculator.groupStep []).map (fun e =>
      { monthName := e.1
        usage := e.2.foldl (fun s r => s + r.value) (0 : ℚ)
        cost := GasCalculator.monthCost (e.2.foldl (fun s r => s + r.value) (0 : ℚ)) tariff }))
  have hbdlen : (GasCalculator.calculateGasMonthlyBreakdown readings tariff).length =
      ((readings.map GasCalculator.gasKey).dedup).length := by
    rw [hbd, hperm.length_eq, List.length_map]
    have h1 : (readings.foldl GasCalculator.groupStep []).length =
        ((readings.foldl GasCalculator.groupStep []).map Prod.fst).length :=
      (List.length_map _ _).symm
    have h2 : ((readings.foldl GasCalculator.groupStep []).map Prod.fst).dedup =
        (readings.foldl GasCalculator.groupStep []).map Prod.fst :=
      List.dedup_eq_self.mpr hnd
    have h3 : ((readings.foldl GasCalculator.groupStep []).map Prod.fst).toFinset =
        (readings.map GasCalculator.gasKey).toFinset := by
      ext x
      simp only [List.mem_toFinset]
      exact hkeys x
    calc (readings.foldl GasCalculator.groupStep []).length
        = ((readings.foldl GasCalculator.groupStep []).map Prod.fst).length := h1
      _ = ((readings.foldl GasCalculator.groupStep []).map Prod.fst).dedup.length := by rw [h2]
      _ = ((readings.foldl GasCalculator.groupStep []).map Prod.fst).toFinset.card :=
          (List.card_toFinset _).symm
      _ = (readings.map GasCalculator.gasKey).toFinset.card := by rw [h3]
      _ = ((readings.map GasCalculator.gasKey).dedup).length := List.card_toFinset _
  have hentry : ∀ e ∈ GasCalculator.calculateGasMonthlyBreakdown readings tariff,
      e.cost = GasCalculator.monthCost e.usage tariff ∧
      e.usage = ((readings.filter (fun r => GasCalculator.gasKey r = e.monthName)).map
        (fun r => r.value)).sum := by
    intro e he
    rw [hbd] at he
    have he' := hperm.mem_iff.mp he
    rcases List.mem_map.mp he' with ⟨g, hg, hge⟩
    obtain ⟨k, b⟩ := g
    have hb : b = readings.filter (fun r => GasCalculator.gasKey r = k) := by
      have hstep := foldl_groupStep_bucketsOf readings [] k
      have hb0 : bucketsOf [] k = [] := by simp [bucketsOf]
      rw [hb0, List.nil_append] at hstep
      rw [← bucketsOf_of_mem (readings.foldl GasCalculator.groupStep []) hnd k b hg, hstep]
    subst hge
    refine ⟨rfl, ?_⟩
    show b.foldl (fun s r => s + r.value) (0 : ℚ) = _
    rw [foldl_add_map (fun r => r.value) b 0, zero_add, hb]
  have hpos : 0 < (GasCalculator.calculateGasMonthlyBreakdown readings tariff).length := by
    rw [hbd, hperm.length_eq, List.length_map]
    obtain ⟨r, rest, hr⟩ := List.exists_cons_of_ne_nil hne
    have hmem : GasCalculator.gasKey r ∈
        (readings.foldl GasCalculator.groupStep []).map Prod.fst :=
      (hkeys _).mpr (by rw [hr]; simp)
    rcases List.mem_map.mp hmem with ⟨g, hg, -⟩
    exact List.length_pos.mpr (List.ne_nil_of_mem hg)
  refine ⟨?_, ?_, ?_, ?_⟩
  · show (GasCalculator.calculateGasMonthlyBreakdown readings tariff).length = _
    exact hbdlen
  · exact hentry
  · show (GasCalculator.calculateGasMonthlyBreakdown readings tariff).foldl
        (fun s m => s + m.cost) (0 : ℚ) =
      ((GasCalculator.calculateGasMonthlyBreakdown readings tariff).map (fun m => m.cost)).sum
    exact (foldl_add_map (fun m => m.cost)
      (GasCalculator.calculateGasMonthlyBreakdown readings tariff) 0).trans (zero_add _)
  · show (if 0 < (GasCalculator.calculateGasMonthlyBreakdown readings tariff).length then _ else _) = _
    rw [if_pos hpos]
    rfl

/-- Concrete gas data for the witness: two January 2024 readings and one
    February 2024 reading. -/
def c9Readings : List GasReading :=
  [{ timestamp := ⟨0, 2024, 0, 0⟩, value := 20 },
   { timestamp := ⟨1, 2024, 0, 12⟩, value := 15 },
   { timestamp := ⟨2, 2024, 1, 0⟩, value := 40 }]

/-- Concrete gas tariff for the witness. -/
def c9Tariff : GasTariff :=
  { id := "g1", name := "g1", description := "", baselineRate := 2,
    overBaselineRate := 3, baselineTherms := 30, fixedMonthlyCharge := 5 }

theorem c9_gas_monthly_average_witness :
    (GasCalculator.calculateGasComparison c9Readings c9Tariff).breakdown.length =
      ((c9Readings.map GasCalculator.gasKey).dedup).length ∧
    (GasCalculator.calculateGasComparison c9Readings c9Tariff).estimatedMonthlyCost =
      (GasCalculator.calculateGasComparison c9Readings c9Tariff).totalCost /
        ((GasCalculator.calculateGasComparison c9Readings c9Tariff).breakdown.length : ℚ) :=
  ⟨(c9_gas_monthly_average c9Readings c9Tariff (by simp [c9Readings])).1,
   (c9_gas_monthly_average c9Readings c9Tariff (by simp [c9Readings])).2.2.2⟩

/-! ### C1: tiered-baseline pricing in `src/services/energyCalculator.ts` -/

theorem baselineFor_pos (m : ℕ) : (0 : ℚ) < baselineFor m := by
  unfold baselineFor
  split <;> norm_num

/-- For `flat`/`tiered` tariffs with non-empty periods, the services engine's
    rate is the three-tier formula over the seasonal baseline. -/
theorem rateFor_flat (t : Tariff) (ht : t.type = .flat ∨ t.type = .tiered)
    (m h : ℕ) (c : ℚ) :
    EnergyCalculator.rateFor t m h c =
      (if c < baselineFor m then (t.periods.headD defaultPeriod).rate
       else if c < baselineFor m * 4 then (t.periods.headD defaultPeriod).rate * 1.28
       else (t.periods.headD defaultPeriod).rate * 1.45) := by
  rcases ht with ht | ht <;> simp [EnergyCalculator.rateFor, ht, baselineFor]

theorem upsertPeriod_keys (pm : List (String × ℚ × ℚ)) (k : String) (du dc : ℚ) :
    (upsertPeriod pm k du dc).map Prod.fst =
      (if k ∈ pm.map Prod.fst then pm.map Prod.fst else pm.map Prod.fst ++ [k]) := by
  induction pm with
  | nil => simp [upsertPeriod]
  | cons e rest ih =>
      obtain ⟨k', u, c⟩ := e
      by_cases hk : k' = k
      · simp [upsertPeriod, hk]
      · have hk' : ¬k = k' := fun h => hk h.symm
        simp only [upsertPeriod, if_neg hk, List.map_cons, ih]
        by_cases hmem : k ∈ rest.map Prod.fst
        · simp [hmem, hk']
        · simp [hmem, hk']

/-- If every reading of `l` falls in month key `k` and `k` is already present
    in the period map, the fold leaves the key list unchanged. -/
theorem foldl_step_keys (f : Tariff → ℕ → ℕ → ℚ → ℚ) (t : Tariff) (k : String)
    (l : List EnergyReading)
    (hall : ∀ r ∈ l, monthKey r.timestamp.year r.timestamp.month = k) :
    ∀ s : CalcState, k ∈ s.periodMap.map Prod.fst →
      ((l.foldl (CostEngine.step f t) s).periodMap).map Prod.fst =
        s.periodMap.map Prod.fst := by
  induction l with
  | nil => intro s _; rfl
  | cons r rest ih =>
      intro s hmem
      rw [List.foldl_cons]
      have hrk := hall r (by simp)
      have hstep : ((CostEngine.step f t s r).periodMap).map Prod.fst =
          s.periodMap.map Prod.fst := by
        simp only [CostEngine.step, upsertPeriod_keys, hrk]
        rw [if_pos hmem]
      rw [ih (fun x hx => hall x (by simp [hx])) _ (by rw [hstep]; exact hmem), hstep]

/-- Readings priced while the counter stays at or below the baseline are all
    charged at the tier-1 base rate. -/
theorem tier1_phase (t : Tariff) (ht : t.type = .flat ∨ t.type = .tiered) (m : ℕ)
    (l : List EnergyReading) :
    ∀ s : CalcState, s.currentMonth = (m : ℤ) →
      (∀ r ∈ l, r.timestamp.month = m ∧ 0 ≤ r.value) →
      0 ≤ s.monthlyUsageCounter →
      s.monthlyUsageCounter + (l.map (fun r => r.value)).sum ≤ baselineFor m →
      (l.foldl (CostEngine.step EnergyCalculator.rateFor t) s).totalCost =
          s.totalCost + (t.periods.headD defaultPeriod).rate * (l.map (fun r => r.value)).sum ∧
      (l.foldl (CostEngine.step EnergyCalculator.rateFor t) s).monthlyUsageCounter =
          s.monthlyUsageCounter + (l.map (fun r => r.value)).sum ∧
      (l.foldl (CostEngine.step EnergyCalculator.rateFor t) s).currentMonth = (m : ℤ) := by
  induction l with
  | nil =>
      intro s hcm _ _ _
      simp [hcm]
  | cons r rest ih =>
      intro s hcm hall hc0 hsum
      obtain ⟨hm, hv⟩ := hall r (by simp)
      have hrest : ∀ x ∈ rest, x.timestamp.month = m ∧ 0 ≤ x.value :=
        fun x hx => hall x (by simp [hx])
      have hsumrest : 0 ≤ (rest.map (fun r => r.value)).sum := by
        apply List.sum_nonneg
        intro x hx
        rcases List.mem_map.mp hx with ⟨y, hy, rfl⟩
        exact (hrest y hy).2
      have hsum' : s.monthlyUsageCounter + (r.value + (rest.map (fun r => r.value)).sum) ≤
          baselineFor m := by
        simpa using hsum
      have hstate : (CostEngine.step EnergyCalculator.rateFor t s r).totalCost =
            s.totalCost + r.value *
              EnergyCalculator.rateFor t m r.timestamp.hour s.monthlyUsageCounter ∧
          (CostEngine.step EnergyCalculator.rateFor t s r).monthlyUsageCounter =
            s.monthlyUsageCounter + r.value ∧
          (CostEngine.step EnergyCalculator.rateFor t s r).currentMonth = (m : ℤ) := by
        refine ⟨?_, ?_, ?_⟩ <;> simp [CostEngine.step, hm, hcm]
      rw [List.foldl_cons]
      by_cases hclt : s.monthlyUsageCounter < baselineFor m
      · have hrate : EnergyCalculator.rateFor t m r.timestamp.hour s.monthlyUsageCounter =
            (t.periods.headD defaultPeriod).rate := by
          rw [rateFor_flat t ht, if_pos hclt]
        obtain ⟨ih1, ih2, ih3⟩ := ih (CostEngine.step EnergyCalculator.rateFor t s r)
          hstate.2.2 hrest
          (by rw [hstate.2.1]; linarith)
          (by rw [hstate.2.1]; linarith)
        refine ⟨?_, ?_, ih3⟩
        · rw [ih1, hstate.1, hrate]
          simp only [List.map_cons, List.sum_cons]
          ring
        · rw [ih2, hstate.2.1]
          simp only [List.map_cons, List.sum_cons]
          ring
      · have hceq : s.monthlyUsageCounter = baselineFor m := le_antisymm (by linarith) (not_lt.mp hclt)
        have hv0 : r.value = 0 := by linarith
        obtain ⟨ih1, ih2, ih3⟩ := ih (CostEngine.step EnergyCalculator.rateFor t s r)
          hstate.2.2 hrest
          (by rw [hstate.2.1, hv0]; linarith)
          (by rw [hstate.2.1, hv0]; linarith)
        refine ⟨?_, ?_, ih3⟩
        · rw [ih1, hstate.1]
          simp only [List.map_cons, List.sum_cons]
          rw [hv0]
          ring
        · rw [ih2, hstate.2.1]
          simp only [List.map_cons, List.sum_cons]
          rw [hv0]
          ring

/-- Readings priced while the counter stays between the baseline and 4x the
    baseline are all charged at 1.28x the base rate. -/
theorem tier2_phase (t : Tariff) (ht : t.type = .flat ∨ t.type = .tiered) (m : ℕ)
    (l : List EnergyReading) :
    ∀ s : CalcState, s.currentMonth = (m : ℤ) →
      (∀ r ∈ l, r.timestamp.month = m ∧ 0 ≤ r.value) →
      baselineFor m ≤ s.monthlyUsageCounter →
      s.monthlyUsageCounter + (l.map (fun r => r.value)).sum ≤ baselineFor m * 4 →
      (l.foldl (CostEngine.step EnergyCalculator.rateFor t) s).totalCost =
          s.totalCost + (t.periods.headD defaultPeriod).rate * 1.28 * (l.map (fun r => r.value)).sum ∧
      (l.foldl (CostEngine.step EnergyCalculator.rateFor t) s).monthlyUsageCounter =
          s.monthlyUsageCounter + (l.map (fun r => r.value)).sum ∧
      (l.foldl (CostEngine.step EnergyCalculator.rateFor t) s).currentMonth = (m : ℤ) := by
  induction l with
  | nil =>
      intro s hcm _ _ _
      simp [hcm]
  | cons r rest ih =>
      intro s hcm hall hcb hsum
      obtain ⟨hm, hv⟩ := hall r (by simp)
      have hrest : ∀ x ∈ rest, x.timestamp.month = m ∧ 0 ≤ x.value :=
        fun x hx => hall x (by simp [hx])
      have hsumrest : 0 ≤ (rest.map (fun r => r.value)).sum := by
        apply List.sum_nonneg
        intro x hx
        rcases List.mem_map.mp hx with ⟨y, hy, rfl⟩
        exact (hrest y hy).2
      have hsum' : s.monthlyUsageCounter + (r.value + (rest.map (fun r => r.value)).sum) ≤
          baselineFor m * 4 := by
        simpa using hsum
      have hstate : (CostEngine.step EnergyCalculator.rateFor t s r).totalCost =
            s.totalCost + r.value *
              EnergyCalculator.rateFor t m r.timestamp.hour s.monthlyUsageCounter ∧
          (CostEngine.step EnergyCalculator.rateFor t s r).monthlyUsageCounter =
            s.monthlyUsageCounter + r.value ∧
          (CostEngine.step EnergyCalculator.rateFor t s r).currentMonth = (m : ℤ) := by
        refine ⟨?_, ?_, ?_⟩ <;> simp [CostEngine.step, hm, hcm]
      rw [List.foldl_cons]
      by_cases hclt : s.monthlyUsageCounter < baselineFor m * 4
      · have hrate : EnergyCalculator.rateFor t m r.timestamp.hour s.monthlyUsageCounter =
            (t.periods.headD defaultPeriod).rate * 1.28 := by
          rw [rateFor_flat t ht, if_neg (not_lt.mpr hcb), if_pos hclt]
        obtain ⟨ih1, ih2, ih3⟩ := ih (CostEngine.step EnergyCalculator.rateFor t s r)
          hstate.2.2 hrest
          (by rw [hstate.2.1]; linarith)
          (by rw [hstate.2.1]; linarith)
        refine ⟨?_, ?_, ih3⟩
        · rw [ih1, hstate.1, hrate]
          simp only [List.map_cons, List.sum_cons]
          ring
        · rw [ih2, hstate.2.1]
          simp only [List.map_cons, List.sum_cons]
          ring
      · have hceq : s.monthlyUsageCounter = baselineFor m * 4 := le_antisymm (by linarith) (not_lt.mp hclt)
        have hv0 : r.value = 0 := by linarith
        obtain ⟨ih1, ih2, ih3⟩ := ih (CostEngine.step EnergyCalculator.rateFor t s r)
          hstate.2.2 hrest
          (by rw [hstate.2.1, hv0]; linarith)
          (by rw [hstate.2.1, hv0]; linarith)
        refine ⟨?_, ?_, ih3⟩
        · rw [ih1, hstate.1]
          simp only [List.map_cons, List.sum_cons]
          rw [hv0]
          ring
        · rw [ih2, hstate.2.1]
          simp only [List.map_cons, List.sum_cons]
          rw [hv0]
          ring

/-- When the run's period map holds exactly one month key, the breakdown has
    one entry and the reported total is the energy total plus one fixed charge. -/
theorem calc_of_single_key (t : Tariff) (l : List EnergyReading) (k : String)
    (hkeys : ((CostEngine.run EnergyCalculator.rateFor l t).periodMap).map Prod.fst = [k]) :
    (EnergyCalculator.calculateDetailedCost l t).breakdown.length = 1 ∧
    (EnergyCalculator.calculateDetailedCost l t).totalCost =
      (CostEngine.run EnergyCalculator.rateFor l t).totalCost + t.fixedMonthlyCharge := by
  have hlen : (CostEngine.run EnergyCalculator.rateFor l t).periodMap.length = 1 := by
    have hcg := congrArg List.length hkeys
    simpa using hcg
  have hblen : (CostEngine.breakdownOf t.fixedMonthlyCharge
      (CostEngine.run EnergyCalculator.rateFor l t).periodMap).length = 1 := by
    unfold CostEngine.breakdownOf
    rw [(List.perm_insertionSort _ _).length_eq, List.length_map, hlen]
  constructor
  · exact hblen
  · show (CostEngine.run EnergyCalculator.rateFor l t).totalCost +
        ((CostEngine.breakdownOf t.fixedMonthlyCharge
          (CostEngine.run EnergyCalculator.rateFor l t).periodMap).length : ℚ) *
          t.fixedMonthlyCharge = _
    rw [hblen]
    push_cast
    ring

/-- The very first reading starts from the reset counter 0 and is always
    charged at the base rate (0 is below either baseline). -/
theorem step_init (t : Tariff) (ht : t.type = .flat ∨ t.type = .tiered)
    (r : EnergyReading) :
    CostEngine.step EnergyCalculator.rateFor t CostEngine.initState r =
      { periodMap := [(monthKey r.timestamp.year r.timestamp.month,
          r.value, r.value * (t.periods.headD defaultPeriod).rate)]
        totalCost := r.value * (t.periods.headD defaultPeriod).rate
        monthlyUsageCounter := r.value
        currentMonth := (r.timestamp.month : ℤ) } := by
  have hrate : EnergyCalculator.rateFor t r.timestamp.month r.timestamp.hour 0 =
      (t.periods.headD defaultPeriod).rate := by
    rw [rateFor_flat t ht, if_pos (baselineFor_pos _)]
  simp [CostEngine.step, CostEngine.initState, upsertPeriod, hrate]

/-- Scenario: nonnegative readings of one winter month summing to exactly
    270 kWh never leave tier 1 (the winter baseline is 350). -/
theorem scenario_winter_270 (t : Tariff) (ht : t.type = .flat ∨ t.type = .tiered)
    (m : ℕ) (hm : ¬(5 ≤ m ∧ m ≤ 8)) (y : ℤ) (l : List EnergyReading)
    (hall : ∀ r ∈ l, r.timestamp.month = m ∧ r.timestamp.year = y ∧ 0 ≤ r.value)
    (hsum : (l.map (fun r => r.value)).sum = 270) :
    (EnergyCalculator.calculateDetailedCost l t).breakdown.length = 1 ∧
    (EnergyCalculator.calculateDetailedCost l t).totalCost =
      (t.periods.headD defaultPeriod).rate * 270 + t.fixedMonthlyCharge := by
  cases l with
  | nil => exfalso; norm_num at hsum
  | cons r rest =>
      obtain ⟨hrm, hry, hrv⟩ := hall r (by simp)
      have hrestall : ∀ x ∈ rest, x.timestamp.month = m ∧ 0 ≤ x.value :=
        fun x hx => ⟨(hall x (by simp [hx])).1, (hall x (by simp [hx])).2.2⟩
      have hb : baselineFor m = 350 := by unfold baselineFor; rw [if_neg hm]
      have hsum' : r.value + (rest.map (fun r => r.value)).sum = 270 := by
        simpa using hsum
      have hrun : CostEngine.run EnergyCalculator.rateFor (r :: rest) t =
          rest.foldl (CostEngine.step EnergyCalculator.rateFor t)
            (CostEngine.step EnergyCalculator.rateFor t CostEngine.initState r) := rfl
      have hs1 := step_init t ht r
      obtain ⟨h1t, h1c, h1m⟩ := tier1_phase t ht m rest
        (CostEngine.step EnergyCalculator.rateFor t CostEngine.initState r)
        (by rw [hs1]; simp [hrm])
        hrestall
        (by rw [hs1]; exact hrv)
        (by rw [hs1]; show r.value + _ ≤ _; rw [hb]; linarith)
      have hkeys : ((CostEngine.run EnergyCalculator.rateFor (r :: rest) t).periodMap).map
          Prod.fst = [monthKey y m] := by
        rw [hrun]
        have hs1k : ((CostEngine.step EnergyCalculator.rateFor t CostEngine.initState
            r).periodMap).map Prod.fst = [monthKey y m] := by
          rw [hs1]
          simp [hry, hrm]
        rw [foldl_step_keys EnergyCalculator.rateFor t (monthKey y m) rest
          (fun x hx => by rw [(hall x (by simp [hx])).2.1, (hall x (by simp [hx])).1])
          _ (by rw [hs1k]; simp), hs1k]
      obtain ⟨hlen, htot⟩ := calc_of_single_key t (r :: rest) (monthKey y m) hkeys
      refine ⟨hlen, ?_⟩
      rw [htot]
      have hrt : (CostEngine.run EnergyCalculator.rateFor (r :: rest) t).totalCost =
          (t.periods.headD defaultPeriod).rate * 270 := by
        rw [hrun, h1t, hs1]
        show r.value * (t.periods.headD defaultPeriod).rate + _ = _
        calc r.value * (t.periods.headD defaultPeriod).rate +
              (t.periods.headD defaultPeriod).rate * (rest.map (fun r => r.value)).sum
            = (t.periods.headD defaultPeriod).rate *
                (r.value + (rest.map (fun r => r.value)).sum) := by ring
          _ = (t.periods.headD defaultPeriod).rate * 270 := by rw [hsum']
      rw [hrt]

/-- Scenario: a 400 kWh summer month (baseline 270) whose nonnegative
    readings split exactly at the baseline boundary is charged 270 at the
    base rate and 130 at 1.28x. -/
theorem scenario_summer_400 (t : Tariff) (ht : t.type = .flat ∨ t.type = .tiered)
    (m : ℕ) (h5 : 5 ≤ m) (h8 : m ≤ 8) (y : ℤ) (l1 l2 : List EnergyReading)
    (hall : ∀ r ∈ l1 ++ l2, r.timestamp.month = m ∧ r.timestamp.year = y ∧ 0 ≤ r.value)
    (hsum1 : (l1.map (fun r => r.value)).sum = 270)
    (hsum2 : (l2.map (fun r => r.value)).sum = 130) :
    (EnergyCalculator.calculateDetailedCost (l1 ++ l2) t).breakdown.length = 1 ∧
    (EnergyCalculator.calculateDetailedCost (l1 ++ l2) t).totalCost =
      (t.periods.headD defaultPeriod).rate * 270 +
        (t.periods.headD defaultPeriod).rate * 1.28 * 130 + t.fixedMonthlyCharge := by
  cases l1 with
  | nil => exfalso; norm_num at hsum1
  | cons r rest =>
      obtain ⟨hrm, hry, hrv⟩ := hall r (by simp)
      have hrest1 : ∀ x ∈ rest, x.timestamp.month = m ∧ 0 ≤ x.value :=
        fun x hx => ⟨(hall x (by simp [hx])).1, (hall x (by simp [hx])).2.2⟩
      have hl2 : ∀ x ∈ l2, x.timestamp.month = m ∧ 0 ≤ x.value :=
        fun x hx => ⟨(hall x (by simp [hx])).1, (hall x (by simp [hx])).2.2⟩
      have hb : baselineFor m = 270 := by unfold baselineFor; rw [if_pos ⟨h5, h8⟩]
      have hsum1' : r.value + (rest.map (fun r => r.value)).sum = 270 := by
        simpa using hsum1
      have happ : (r :: rest) ++ l2 = r :: (rest ++ l2) := rfl
      have hrun : CostEngine.run EnergyCalculator.rateFor ((r :: rest) ++ l2) t =
          l2.foldl (CostEngine.step EnergyCalculator.rateFor t)
            (rest.foldl (CostEngine.step EnergyCalculator.rateFor t)
              (CostEngine.step EnergyCalculator.rateFor t CostEngine.initState r)) := by
        show ((r :: rest) ++ l2).foldl _ CostEngine.initState = _
        rw [happ, List.foldl_cons, List.foldl_append]
      have hs1 := step_init t ht r
      obtain ⟨h1t, h1c, h1m⟩ := tier1_phase t ht m rest
        (CostEngine.step EnergyCalculator.rateFor t CostEngine.initState r)
        (by rw [hs1]; simp [hrm])
        hrest1
        (by rw [hs1]; exact hrv)
        (by rw [hs1]; show r.value + _ ≤ _; rw [hb]; linarith)
      have hc2 : (rest.foldl (CostEngine.step EnergyCalculator.rateFor t)
          (CostEngine.step EnergyCalculator.rateFor t CostEngine.initState
            r)).monthlyUsageCounter = 270 := by
        rw [h1c, hs1]
        show r.value + _ = _
        exact hsum1'
      obtain ⟨h2t, h2c, h2m⟩ := tier2_phase t ht m l2
        (rest.foldl (CostEngine.step EnergyCalculator.rateFor t)
          (CostEngine.step EnergyCalculator.rateFor t CostEngine.initState r))
        h1m
        hl2
        (by rw [hc2, hb])
        (by rw [hc2, hb, hsum2]; norm_num)
      have hkeys : ((CostEngine.run EnergyCalculator.rateFor ((r :: rest) ++ l2)
          t).periodMap).map Prod.fst = [monthKey y m] := by
        have hs1k : ((CostEngine.step EnergyCalculator.rateFor t CostEngine.initState
            r).periodMap).map Prod.fst = [monthKey y m] := by
          rw [hs1]
          simp [hry, hrm]
        have hrun2 : CostEngine.run EnergyCalculator.rateFor ((r :: rest) ++ l2) t =
            (rest ++ l2).foldl (CostEngine.step EnergyCalculator.rateFor t)
              (CostEngine.step EnergyCalculator.rateFor t CostEngine.initState r) := by
          show ((r :: rest) ++ l2).foldl _ CostEngine.initState = _
          rw [happ, List.foldl_cons]
        rw [hrun2]
        rw [foldl_step_keys EnergyCalculator.rateFor t (monthKey y m) (rest ++ l2)
          (fun x hx => by
            have hx' : x ∈ r :: (rest ++ l2) := List.mem_cons_of_mem r hx
            rw [(hall x hx').2.1, (hall x hx').1])
          _ (by rw [hs1k]; simp), hs1k]
      obtain ⟨hlen, htot⟩ := calc_of_single_key t ((r :: rest) ++ l2) (monthKey y m) hkeys
      refine ⟨hlen, ?_⟩
      rw [htot]
      have hrt : (CostEngine.run EnergyCalculator.rateFor ((r :: rest) ++ l2) t).totalCost =
          (t.periods.headD defaultPeriod).rate * 270 +
            (t.periods.headD defaultPeriod).rate * 1.28 * 130 := by
        rw [hrun, h2t, h1t, hs1, hsum2]
        show r.value * (t.periods.headD defaultPeriod).rate + _ + _ = _
        calc r.value * (t.periods.headD defaultPeriod).rate +
              (t.periods.headD defaultPeriod).rate * (rest.map (fun r => r.value)).sum +
              (t.periods.headD defaultPeriod).rate * 1.28 * 130
            = (t.periods.headD defaultPeriod).rate *
                (r.value + (rest.map (fun r => r.value)).sum) +
              (t.periods.headD defaultPeriod).rate * 1.28 * 130 := by ring
          _ = _ := by rw [hsum1']
      rw [hrt]

/-- Flat tariff with `periods[0].rate = 0.38` and no fixed charge. -/
def c1Tariff : Tariff :=
  { id := "e1", name := "e1", description := "", type := .flat,
    periods := [{ name := "p", startHour := 0, endHour := 23, rate := 0.38 }],
    fixedMonthlyCharge := 0 }

/-- A single coarse 400 kWh reading in June (a summer month). -/
def c1Single400 : List EnergyReading :=
  [{ timestamp := ⟨0, 2025, 5, 0⟩, value := 400 }]

/-- C1 (counterexample): a month whose 400 kWh arrive as one reading is
    charged entirely at the rate selected by its starting counter (0, tier 1),
    so the energy cost is 400 x 0.38 = 152, not the claimed
    270 x 0.38 + 130 x 0.38 x 1.28 = 165.832 — tiering is applied per reading
    against the counter before that reading, never within a reading. -/
theorem c1_counterexample :
    (EnergyCalculator.calculateDetailedCost c1Single400 c1Tariff).totalCost = 152 ∧
    (270 : ℚ) * 0.38 + 130 * 0.38 * 1.28 ≠ 152 := by
  constructor
  · norm_num [EnergyCalculator.calculateDetailedCost, CostEngine.calculateDetailedCost,
      CostEngine.run, CostEngine.step, CostEngine.initState, CostEngine.breakdownOf,
      EnergyCalculator.rateFor, hourMatches, upsertPeriod, monthKey, c1Tariff, c1Single400,
      List.insertionSort, List.orderedInsert]
  · norm_num

/-- C1 (amended): for `flat`/`tiered` tariffs the services engine prices each
    reading against the seasonal baseline (270 in months 5-8, 350 otherwise)
    using the running counter as it stood before the reading: below baseline
    at `periods[0].rate`, from baseline to 4x baseline at 1.28x, at or above
    4x baseline at 1.45x.  In particular, nonnegative readings of one winter
    month summing to exactly 270 kWh at rate 0.38 cost exactly 270 x 0.38;
    and a 400 kWh summer month whose nonnegative readings split at the 270
    baseline boundary costs 270 x 0.38 + 130 x (0.38 x 1.28). -/
theorem c1_amended :
    (∀ (t : Tariff) (m h : ℕ) (c : ℚ) (p0 : TariffPeriod) (ps : List TariffPeriod),
      (t.type = .flat ∨ t.type = .tiered) → t.periods = p0 :: ps →
      EnergyCalculator.rateFor t m h c =
        (if c < (if 5 ≤ m ∧ m ≤ 8 then (270 : ℚ) else 350) then p0.rate
         else if c < (if 5 ≤ m ∧ m ≤ 8 then (270 : ℚ) else 350) * 4 then p0.rate * 1.28
         else p0.rate * 1.45)) ∧
    (∀ (f : Tariff → ℕ → ℕ → ℚ → ℚ) (t : Tariff) (s : CalcState) (r : EnergyReading),
      (CostEngine.step f t s r).totalCost = s.totalCost + r.value *
        f t r.timestamp.month r.timestamp.hour
          (if (r.timestamp.month : ℤ) = s.currentMonth then s.monthlyUsageCounter else 0)) ∧
    (∀ (t : Tariff) (p0 : TariffPeriod) (ps : List TariffPeriod) (m : ℕ) (y : ℤ)
        (l : List EnergyReading),
      (t.type = .flat ∨ t.type = .tiered) → t.periods = p0 :: ps → p0.rate = 0.38 →
      ¬(5 ≤ m ∧ m ≤ 8) →
      (∀ r ∈ l, r.timestamp.month = m ∧ r.timestamp.year = y ∧ 0 ≤ r.value) →
      (l.map (fun r => r.value)).sum = 270 →
      (EnergyCalculator.calculateDetailedCost l t).breakdown.length = 1 ∧
      (EnergyCalculator.calculateDetailedCost l t).totalCost =
        270 * 0.38 + t.fixedMonthlyCharge) ∧
    (∀ (t : Tariff) (p0 : TariffPeriod) (ps : List TariffPeriod) (m : ℕ) (y : ℤ)
        (l1 l2 : List EnergyReading),
      (t.type = .flat ∨ t.type = .tiered) → t.periods = p0 :: ps → p0.rate = 0.38 →
      5 ≤ m → m ≤ 8 →
      (∀ r ∈ l1 ++ l2, r.timestamp.month = m ∧ r.timestamp.year = y ∧ 0 ≤ r.value) →
      (l1.map (fun r => r.value)).sum = 270 →
      (l2.map (fun r => r.value)).sum = 130 →
      (EnergyCalculator.calculateDetailedCost (l1 ++ l2) t).breakdown.length = 1 ∧
      (EnergyCalculator.calculateDetailedCost (l1 ++ l2) t).totalCost =
        270 * 0.38 + 130 * (0.38 * 1.28) + t.fixedMonthlyCharge) := by
  refine ⟨?_, ?_, ?_, ?_⟩
  · intro t m h c p0 ps ht hp
    rw [rateFor_flat t ht, hp]
    simp only [List.headD_cons]
    unfold baselineFor
    rfl
  · intro f t s r
    by_cases h : (r.timestamp.month : ℤ) = s.currentMonth <;>
      simp [CostEngine.step, h]
  · intro t p0 ps m y l ht hp hrate hm hall hsum
    obtain ⟨hlen, htot⟩ := scenario_winter_270 t ht m hm y l hall hsum
    refine ⟨hlen, ?_⟩
    rw [htot, hp]
    simp only [List.headD_cons]
    rw [hrate]
    ring
  · intro t p0 ps m y l1 l2 ht hp hrate h5 h8 hall hsum1 hsum2
    obtain ⟨hlen, htot⟩ := scenario_summer_400 t ht m h5 h8 y l1 l2 hall hsum1 hsum2
    refine ⟨hlen, ?_⟩
    rw [htot, hp]
    simp only [List.headD_cons]
    rw [hrate]
    ring

/-- Nonnegative winter readings summing to 270 kWh (two January 2024 halves). -/
def c1Winter270 : List EnergyReading :=
  [{ timestamp := ⟨0, 2024, 0, 0⟩, value := 135 },
   { timestamp := ⟨1, 2024, 0, 1⟩, value := 135 }]

/-- Summer readings split exactly at the 270 kWh baseline boundary. -/
def c1SummerL1 : List EnergyReading := [{ timestamp := ⟨0, 2024, 5, 0⟩, value := 270 }]

/-- The 130 kWh of the summer month that fall above the baseline. -/
def c1SummerL2 : List EnergyReading := [{ timestamp := ⟨1, 2024, 5, 1⟩, value := 130 }]

theorem c1_amended_witness :
    ((EnergyCalculator.calculateDetailedCost c1Winter270 c1Tariff).breakdown.length = 1 ∧
      (EnergyCalculator.calculateDetailedCost c1Winter270 c1Tariff).totalCost =
        270 * 0.38 + c1Tariff.fixedMonthlyCharge) ∧
    ((EnergyCalculator.calculateDetailedCost (c1SummerL1 ++ c1SummerL2) c1Tariff).breakdown.length = 1 ∧
      (EnergyCalculator.calculateDetailedCost (c1SummerL1 ++ c1SummerL2) c1Tariff).totalCost =
        270 * 0.38 + 130 * (0.38 * 1.28) + c1Tariff.fixedMonthlyCharge) := by
  constructor
  · refine c1_amended.2.2.1 c1Tariff
      { name := "p", startHour := 0, endHour := 23, rate := 0.38 } [] 0 2024 c1Winter270
      (Or.inl rfl) rfl rfl (by norm_num) ?_ ?_
    · intro r hr
      simp only [c1Winter270, List.mem_cons, List.mem_singleton] at hr
      rcases hr with hr | hr | hr
      · subst hr; exact ⟨rfl, rfl, by norm_num⟩
      · subst hr; exact ⟨rfl, rfl, by norm_num⟩
      · simp at hr
    · simp [c1Winter270]
      norm_num
  · refine c1_amended.2.2.2 c1Tariff
      { name := "p", startHour := 0, endHour := 23, rate := 0.38 } [] 5 2024
      c1SummerL1 c1SummerL2 (Or.inl rfl) rfl rfl (by norm_num) (by norm_num) ?_ ?_ ?_
    · intro r hr
      simp only [c1SummerL1, c1SummerL2, List.cons_append, List.nil_append,
        List.mem_cons, List.mem_singleton] at hr
      rcases hr with hr | hr | hr
      · subst hr; exact ⟨rfl, rfl, by norm_num⟩
      · subst hr; exact ⟨rfl, rfl, by norm_num⟩
      · simp at hr
    · simp [c1SummerL1]
    · simp [c1SummerL2]

/-! ### CSV parsing pipeline

Embedding of `src/services/pgeCsvParser.ts` and `src/services/pgeGasCsvParser.ts`.
The two files duplicate their helper functions verbatim (tokenizer, number /
time / date interpreters, header scoring); each helper below embeds both
copies at once.  The one implementation-defined primitive, `new Date(s)`
full-string parsing tried first by `parseSingleDateTimeField`, is abstracted
as an `oracle : String → Option ℤ` parameter (returning the ms timestamp when
the host's `Date` parser yields a finite time); every theorem below holds for
every oracle.  Dates built from explicit components model
`new Date(y, m, d, h, mi, s).getTime()` via the proleptic-Gregorian civil-day
count at a fixed zero UTC offset; the code only compares and subtracts these
values.  JS regular-expression tests such as `/kwh/.test(h)` are substring
(or any-of-substrings) tests on the already-normalized strings. -/

/-- Model of JS `String.prototype.trim()`: strip leading and trailing
    whitespace (written over character lists so that it evaluates inside the
    kernel, unlike the opaque core `String.trim`). -/
def jsTrim (s : String) : String :=
  String.mk (((s.data.dropWhile Char.isWhitespace).reverse.dropWhile
    Char.isWhitespace).reverse)

/-- Model of JS `String.prototype.toLowerCase()`. -/
def jsToLower (s : String) : String := String.mk (s.data.map Char.toLower)

/-- Substring occurrence test on character lists. -/
def hasSubAux (pat : List Char) : List Char → Bool
  | [] => pat.isEmpty
  | c :: rest => pat.isPrefixOf (c :: rest) || hasSubAux pat rest

/-- Model of `/pat/.test(s)` for a literal pattern: substring containment. -/
def hasSub (s pat : String) : Bool := hasSubAux pat.data s.data

/-- Model of an alternation test `/p1|p2|.../.test(s)`. -/
def hasAnySub (s : String) (pats : List String) : Bool := pats.any (fun p => hasSub s p)

/-- The newline normalisation `text.replace(/\r\n/g, '\n').replace(/\r/g, '\n')`. -/
def normNl : List Char → List Char
  | [] => []
  | '\r' :: '\n' :: rest => '\n' :: normNl rest
  | '\r' :: rest => '\n' :: normNl rest
  | c :: rest => c :: normNl rest

/-- The character loop of `parseCsvRows`: state is `(inQuotes, cell, row, rows)`;
    a doubled quote inside quotes is an escaped quote, an unquoted comma ends a
    cell, an unquoted newline ends a row, rows whose cells are all
    whitespace-blank are dropped. -/
def csvGo : Bool → List Char → List String → List (List String) → List Char →
    List (List String)
  | _, cell, row, rows, [] =>
      let row' := row ++ [String.mk cell]
      if row'.any (fun c => jsTrim c ≠ "") then rows ++ [row'] else rows
  | true, cell, row, rows, '"' :: '"' :: rest => csvGo true (cell ++ ['"']) row rows rest
  | inQuotes, cell, row, rows, '"' :: rest => csvGo (!inQuotes) cell row rows rest
  | false, cell, row, rows, ',' :: rest => csvGo false [] (row ++ [String.mk cell]) rows rest
  | false, cell, row, rows, '\n' :: rest =>
      let row' := row ++ [String.mk cell]
      csvGo false [] []
        (if row'.any (fun c => jsTrim c ≠ "") then rows ++ [row'] else rows) rest
  | inQuotes, cell, row, rows, c :: rest => csvGo inQuotes (cell ++ [c]) row rows rest

/-- Embedding of `parseCsvRows` (identical in both parser files). -/
def parseCsvRows (csvText : String) : List (List String) :=
  csvGo false [] [] [] (normNl csvText.data)

/-- The whitespace-run collapse `.replace(/\s+/g, ' ')`. -/
def collapseWs : Bool → List Char → List Char
  | _, [] => []
  | prevWs, c :: rest =>
      if c.isWhitespace then
        (if prevWs then collapseWs true rest else ' ' :: collapseWs true rest)
      else c :: collapseWs false rest

/-- Embedding of `normalizeHeader`: trim, lowercase, collapse whitespace,
    strip brackets, keep only lowercase letters, digits and spaces. -/
def normalizeHeader (value : String) : String :=
  let cs := (jsToLower (jsTrim value)).data
  let cs := collapseWs false cs
  let cs := cs.filter (fun c =>
    !(c = '(' || c = ')' || c = '[' || c = ']' || c = '\x7b' || c = '\x7d'))
  let cs := cs.filter (fun c => (decide ('a' ≤ c) && decide (c ≤ 'z')) || c.isDigit || c = ' ')
  String.mk cs

/-- Numeric value of a digit string. -/
def digitsToNat (ds : List Char) : ℕ :=
  ds.foldl (fun a c => a * 10 + (c.toNat - '0'.toNat)) 0

/-- The rational denoted by an optional sign, integer digits and fraction
    digits (the JS `Number(...)` of the matched decimal literal, which is
    always finite here). -/
def ratOfDigits (sign : Bool) (intPart fracPart : List Char) : ℚ :=
  let n : ℚ := (digitsToNat intPart : ℚ) + (digitsToNat fracPart : ℚ) / (10 : ℚ) ^ fracPart.length
  if sign then -n else n

/-- Greedy `\d+(?:\.\d+)?` starting at a position known to hold a digit. -/
def numTail (l : List Char) : List Char × List Char :=
  let ds := l.takeWhile Char.isDigit
  match l.dropWhile Char.isDigit with
  | '.' :: r =>
      let fs := r.takeWhile Char.isDigit
      if fs.isEmpty then (ds, []) else (ds, fs)
  | _ => (ds, [])

/-- Leftmost match of `-?\d+(?:\.\d+)?` (the `cleaned.match(...)` call). -/
def findNumMatch : List Char → Option (Bool × List Char × List Char)
  | [] => none
  | c :: rest =>
      if c = '-' then
        match rest with
        | d :: _ => if d.isDigit then some (true, numTail rest) else findNumMatch rest
        | [] => none
      else if c.isDigit then some (false, numTail (c :: rest))
      else findNumMatch rest

/-- Embedding of `parseNumber` (identical in both parser files): trim, return
    `none` on blank, strip commas, extract the first signed decimal. -/
def parseNumber (value : String) : Option ℚ :=
  let raw := jsTrim value
  if raw = "" then none
  else
    let cleaned := raw.data.filter (fun c => c ≠ ',')
    match findNumMatch cleaned with
    | none => none
    | some (sign, ip, fp) => some (ratOfDigits sign ip fp)

/-- One optional `(?::(\d{2}))?` group: absent when no colon follows; a colon
    not followed by exactly two digits (and no third digit) kills the match. -/
def optColon2 (l : List Char) : Option (Option ℕ × List Char) :=
  match l with
  | ':' :: r =>
      let ds := r.takeWhile Char.isDigit
      if ds.length = 2 then some (some (digitsToNat ds), r.drop 2) else none
  | _ => some (none, l)

/-- The `\s*(am|pm)?\s*$` tail of the time regex; `some true` means `pm`. -/
def ampmTail (l : List Char) : Option (Option Bool) :=
  match l.dropWhile Char.isWhitespace with
  | [] => some none
  | a :: b :: rest =>
      if (a.toLower = 'a' ∨ a.toLower = 'p') ∧ b.toLower = 'm' then
        if (rest.dropWhile Char.isWhitespace).isEmpty then some (some (a.toLower = 'p'))
        else none
      else none
  | _ => none

/-- Embedding of `parseTime` (identical in both parser files): matches
    `^\s*(\d{1,2})(?::(\d{2}))?(?::(\d{2}))?\s*(am|pm)?\s*$` case-insensitively,
    validates minutes/seconds <= 59 and hour <= 24 (1..12 with am/pm), and
    converts 12-hour form. -/
def parseTime (timeRaw : String) : Option (ℕ × ℕ × ℕ) :=
  let t := jsTrim timeRaw
  if t = "" then none
  else
    let l := t.data.dropWhile Char.isWhitespace
    let hd := l.takeWhile Char.isDigit
    if hd.length = 0 then none
    else if 2 < hd.length then none
    else
      match optColon2 (l.drop hd.length) with
      | none => none
      | some (m1, rest2) =>
          match optColon2 rest2 with
          | none => none
          | some (m2, rest3) =>
              match ampmTail rest3 with
              | none => none
              | some ampm =>
                  let hours := digitsToNat hd
                  let minutes := m1.getD 0
                  let seconds := m2.getD 0
                  if 59 < minutes ∨ 59 < seconds then none
                  else if 24 < hours then none
                  else
                    match ampm with
                    | none => some (hours, minutes, seconds)
                    | some isPm =>
                        if hours < 1 ∨ 12 < hours then none
                        else if isPm ∧ hours ≠ 12 then some (hours + 12, minutes, seconds)
                        else if ¬isPm ∧ hours = 12 then some (0, minutes, seconds)
                        else some (hours, minutes, seconds)

/-- Splits a digit string into three runs around a fixed separator with
    nothing left over (the anchored three-group date regexes). -/
def splitThree (sep : Char) (l : List Char) : Option (List Char × List Char × List Char) :=
  let a := l.takeWhile Char.isDigit
  match l.drop a.length with
  | c1 :: r1 =>
      if c1 = sep then
        let b := r1.takeWhile Char.isDigit
        match r1.drop b.length with
        | c2 :: r2 =>
            if c2 = sep then
              let c := r2.takeWhile Char.isDigit
              if r2.drop c.length = [] then some (a, b, c) else none
            else none
        | [] => none
      else none
  | [] => none

/-- Range validation shared by the three date patterns: month 1..12 and day
    1..31, yielding `(year, zero-indexed month, day)`. -/
def validUsDate (year : ℤ) (mNum dNum : ℕ) : Option (ℤ × ℕ × ℕ) :=
  if mNum = 0 ∨ 12 < mNum then none
  else if dNum = 0 ∨ 31 < dNum then none
  else some (year, mNum - 1, dNum)

/-- Embedding of `parseUsDate` (identical in both parser files): ISO
    `YYYY-MM-DD`, then `M/D/YYYY` or `M/D/YY` (two-digit years get +2000),
    then `MM-DD-YYYY`. -/
def parseUsDate (dateRaw : String) : Option (ℤ × ℕ × ℕ) :=
  let d := jsTrim dateRaw
  if d = "" then none
  else
    match splitThree '-' d.data with
    | some (a, b, c) =>
        if a.length = 4 ∧ b.length = 2 ∧ c.length = 2 then
          validUsDate (digitsToNat a) (digitsToNat b) (digitsToNat c)
        else if (1 ≤ a.length ∧ a.length ≤ 2) ∧ (1 ≤ b.length ∧ b.length ≤ 2) ∧
            c.length = 4 then
          validUsDate (digitsToNat c) (digitsToNat a) (digitsToNat b)
        else none
    | none =>
        match splitThree '/' d.data with
        | some (a, b, c) =>
            if (1 ≤ a.length ∧ a.length ≤ 2) ∧ (1 ≤ b.length ∧ b.length ≤ 2) ∧
                (2 ≤ c.length ∧ c.length ≤ 4) then
              let yr := digitsToNat c
              validUsDate (if yr < 100 then (yr : ℤ) + 2000 else (yr : ℤ))
                (digitsToNat a) (digitsToNat b)
            else none
        | none => none

/-- Proleptic-Gregorian day count since 1970-01-01 for month `m` in 1..12 and
    day-of-month `d` (days beyond the month's length roll over, as JS `Date`
    normalisation does). -/
def daysFromCivil (y : ℤ) (m : ℕ) (d : ℤ) : ℤ :=
  let y' := if m ≤ 2 then y - 1 else y
  let era := Int.fdiv y' 400
  let yoe := y' - era * 400
  let doy := (153 * (if 2 < m then (m : ℤ) - 3 else (m : ℤ) + 9) + 2) / 5 + (d - 1)
  let doe := yoe * 365 + yoe / 4 - yoe / 100 + doy
  era * 146097 + doe - 719468

/-- Model of `new Date(y, monthIndex, d, h, mi, s, 0).getTime()` at zero UTC
    offset.  The resulting value is always finite for the year ranges the date
    patterns admit, so the `Number.isFinite(dt.getTime())` guards never fire. -/
def epochMs (year : ℤ) (monthIndex day hours minutes seconds : ℕ) : ℤ :=
  (daysFromCivil year (monthIndex + 1) (day : ℤ) * 86400 +
    (hours : ℤ) * 3600 + (minutes : ℤ) * 60 + (seconds : ℤ)) * 1000

/-- Embedding of `parseDateTime` (identical in both parser files). -/
def parseDateTime (dateRaw : String) (timeRaw : Option String) : Option ℤ :=
  match parseUsDate dateRaw with
  | none => none
  | some (y, mi, d) =>
      match timeRaw with
      | none => some (epochMs y mi d 0 0 0)
      | some tr =>
          match parseTime tr with
          | none => none
          | some (h, mn, sc) => some (epochMs y mi d h mn sc)

/-- End-anchored `\d{1,2}(:\d{2})?(:\d{2})?\s*(am|pm)?$` test for the fallback
    split of `parseSingleDateTimeField`. -/
def timeTailMatch (l : List Char) : Bool :=
  let hd := l.takeWhile Char.isDigit
  if hd.length = 0 then false
  else if 2 < hd.length then false
  else
    match optColon2 (l.drop hd.length) with
    | none => false
    | some (_, rest2) =>
        match optColon2 rest2 with
        | none => false
        | some (_, rest3) =>
            match rest3.dropWhile Char.isWhitespace with
            | [] => true
            | a :: b :: rest4 =>
                decide ((a.toLower = 'a' ∨ a.toLower = 'p') ∧ b.toLower = 'm') &&
                  rest4.isEmpty
            | _ => false

/-- The lazy split of `^(.+?)\s+(timepat)$`: the shortest non-empty prefix
    without a newline followed by whitespace and an end-anchored time token. -/
def sdtfSplit : List Char → List Char → Option (String × String)
  | _, [] => none
  | pre, c :: rest =>
      let pre' := pre ++ [c]
      if (!pre'.contains '\n') && !rest.isEmpty &&
          (rest.headD ' ').isWhitespace then
        let rest' := rest.dropWhile Char.isWhitespace
        if !rest'.isEmpty && timeTailMatch rest' then
          some (String.mk pre', String.mk rest')
        else sdtfSplit pre' rest
      else sdtfSplit pre' rest

/-- Embedding of `parseSingleDateTimeField` (identical in both parser files):
    native `new Date(s)` first (the oracle), then the prefix/time split fed to
    `parseDateTime`. -/
def parseSingleDateTimeField (oracle : String → Option ℤ) (raw : String) : Option ℤ :=
  let s := jsTrim raw
  if s = "" then none
  else
    match oracle s with
    | some t => some t
    | none =>
        match sdtfSplit [] s.data with
        | none => none
        | some (datePart, timePart) => parseDateTime datePart (some timePart)

/-- Embedding of `scoreHeaderRow`, parametrised by the unit keyword ("kwh" for
    electricity, "therm" for gas; the only difference between the two files). -/
def scoreHeaderRow (unitKw : String) (row : List String) : ℕ :=
  let joined := String.intercalate " | " (row.map jsToLower)
  (if hasSub joined unitKw then 3 else 0) +
  (if hasAnySub joined ["usage", "consumption", "quantity", "value"] then 2 else 0) +
  (if hasAnySub joined ["start", "end", "interval"] then 2 else 0) +
  (if hasAnySub joined ["date", "time"] then 1 else 0)

/-- The row-qualification and best-score update of `detectHeaderRowIndex`. -/
def detectStep (unitKw : String) (best : Option ℕ × ℕ) (p : ℕ × List String) :
    Option ℕ × ℕ :=
  let row := p.2.map jsTrim
  if ((row.filter (fun c => c ≠ "")).length) < 3 then best
  else
    let score := scoreHeaderRow unitKw row
    if best.2 < score then (some p.1, score) else best

/-- Embedding of `detectHeaderRowIndex` parametrised by unit keyword and
    minimum score threshold (4 for electricity, 3 for gas); `-1` is `none`. -/
def detectHeaderRowIndex (unitKw : String) (threshold : ℕ)
    (rows : List (List String)) : Option ℕ :=
  let best := ((rows.take 80).enum).foldl (detectStep unitKw) (none, 0)
  if threshold ≤ best.2 then best.1 else none

/-- `String(row[idx] ?? '')`: out-of-range access reads as the empty string. -/
def getCell (row : List String) (i : ℕ) : String := row.getD i ""

/-- Cell access through an optional column index (callers guard on `isSome`;
    `none` reads as a blank cell). -/
def getCellO (row : List String) (oi : Option ℕ) : String :=
  match oi with
  | some i => getCell row i
  | none => ""

/-- Resolved column indices of either parser.  The gas parser has no
    import/export netting: its resolver leaves `importIdx`/`exportIdx` at
    `none` and `hasSolarColumns` false, and `usageIdx` holds `thermsIdx`. -/
structure Cols where
  importIdx : Option ℕ
  exportIdx : Option ℕ
  usageIdx : Option ℕ
  startDateIdx : Option ℕ
  startTimeIdx : Option ℕ
  endDateIdx : Option ℕ
  endTimeIdx : Option ℕ
  startDateTimeIdx : Option ℕ
  endDateTimeIdx : Option ℕ
  dateIdx : Option ℕ
  timeIdx : Option ℕ
  hasSolarColumns : Bool
deriving DecidableEq

/-- The timestamp-independent column lookups shared by both parsers. -/
def resolveTsCols (headers : List String) : Cols → Cols := fun c =>
  { c with
    startDateIdx := headers.findIdx? (fun h =>
      hasAnySub h ["start date", "interval start date", "usage start date", "from date"])
    startTimeIdx := headers.findIdx? (fun h =>
      hasAnySub h ["start time", "interval start time", "usage start time", "from time"])
    endDateIdx := headers.findIdx? (fun h =>
      hasAnySub h ["end date", "interval end date", "usage end date", "to date"])
    endTimeIdx := headers.findIdx? (fun h =>
      hasAnySub h ["end time", "interval end time", "usage end time", "to time"])
    startDateTimeIdx := headers.findIdx? (fun h =>
      hasAnySub h ["interval start", "start datetime", "start date time"])
    endDateTimeIdx := headers.findIdx? (fun h =>
      hasAnySub h ["interval end", "end datetime", "end date time"])
    dateIdx := headers.findIdx? (fun h =>
      h = "date" || hasAnySub h ["reading date", "usage date"])
    timeIdx := headers.findIdx? (fun h => h = "time" || hasSub h "reading time") }

/-- Column resolution of `parsePgeIntervalCsv` over the normalized headers. -/
def resolveElecCols (headers : List String) : Cols :=
  let importIdx := headers.findIdx? (fun h => hasSub h "import" && hasSub h "kwh")
  let exportIdx := headers.findIdx? (fun h => hasSub h "export" && hasSub h "kwh")
  let hasSolarColumns := importIdx.isSome && exportIdx.isSome
  let usageIdx :=
    if hasSolarColumns then importIdx
    else if (headers.findIdx? (fun h => hasSub h "kwh" &&
        hasAnySub h ["usage", "consumption", "quantity", "value", "interval"])).isSome then
      headers.findIdx? (fun h => hasSub h "kwh" &&
        hasAnySub h ["usage", "consumption", "quantity", "value", "interval"])
    else
      headers.findIdx? (fun h => hasSub h "kwh" &&
        !(hasAnySub h ["cost", "price", "rate", "charge", "dollar", "$"]))
  resolveTsCols headers
    { importIdx := importIdx, exportIdx := exportIdx, usageIdx := usageIdx
      startDateIdx := none, startTimeIdx := none, endDateIdx := none, endTimeIdx := none
      startDateTimeIdx := none, endDateTimeIdx := none, dateIdx := none, timeIdx := none
      hasSolarColumns := hasSolarColumns }

/-- Column resolution of `parsePgeGasCsv` (therms column, no netting). -/
def resolveGasCols (headers : List String) : Cols :=
  let thermsIdx :=
    if (headers.findIdx? (fun h => hasSub h "therm" &&
        hasAnySub h ["usage", "consumption", "quantity", "value"])).isSome then
      headers.findIdx? (fun h => hasSub h "therm" &&
        hasAnySub h ["usage", "consumption", "quantity", "value"])
    else
      headers.findIdx? (fun h => hasSub h "therm" &&
        !(hasAnySub h ["cost", "price", "rate", "charge", "dollar", "$"]))
  resolveTsCols headers
    { importIdx := none, exportIdx := none, usageIdx := thermsIdx
      startDateIdx := none, startTimeIdx := none, endDateIdx := none, endTimeIdx := none
      startDateTimeIdx := none, endDateTimeIdx := none, dateIdx := none, timeIdx := none
      hasSolarColumns := false }

/-- A parsed interval reading: the `getTime()` value and the usage number. -/
structure PReading where
  ts : ℤ
  value : ℚ
deriving DecidableEq

/-- The per-row usage resolution: net import minus export in solar mode
    (unparsable cells default to 0 there), otherwise the usage column. -/
def rowUsage (cols : Cols) (row : List String) : Option ℚ :=
  if cols.hasSolarColumns then
    some ((parseNumber (getCellO row cols.importIdx)).getD 0 -
      (parseNumber (getCellO row cols.exportIdx)).getD 0)
  else parseNumber (getCellO row cols.usageIdx)

/-- Try the next timestamp strategy only while none has succeeded
    (the `if (!ts && ...)` chain). -/
def orTry (ts : Option ℤ) (cond : Bool) (alt : Unit → Option ℤ) : Option ℤ :=
  match ts with
  | some t => some t
  | none => if cond then alt () else none

/-- The prioritized timestamp-resolution chain of both parsers;
    `fallbackMs` is the nominal interval subtracted from end timestamps
    (15 minutes for electricity, 60 for gas). -/
def resolveTs (oracle : String → Option ℤ) (fallbackMs : ℤ) (cols : Cols)
    (row : List String) : Option ℤ :=
  let ts : Option ℤ :=
    if cols.startDateTimeIdx.isSome then
      parseSingleDateTimeField oracle (getCellO row cols.startDateTimeIdx)
    else none
  let ts := orTry ts (cols.startDateIdx.isSome && cols.startTimeIdx.isSome)
    (fun _ => parseDateTime (getCellO row cols.startDateIdx)
      (some (getCellO row cols.startTimeIdx)))
  let ts := orTry ts (cols.dateIdx.isSome && cols.timeIdx.isSome)
    (fun _ => parseDateTime (getCellO row cols.dateIdx)
      (some (getCellO row cols.timeIdx)))
  let ts := orTry ts (cols.dateIdx.isSome && cols.startTimeIdx.isSome)
    (fun _ => parseDateTime (getCellO row cols.dateIdx)
      (some (getCellO row cols.startTimeIdx)))
  let ts := orTry ts cols.dateIdx.isSome
    (fun _ => parseSingleDateTimeField oracle (getCellO row cols.dateIdx))
  let ts := orTry ts cols.endDateTimeIdx.isSome
    (fun _ => (parseSingleDateTimeField oracle (getCellO row cols.endDateTimeIdx)).map
      (fun endTs => endTs - fallbackMs))
  let ts := orTry ts (cols.endDateIdx.isSome && cols.endTimeIdx.isSome)
    (fun _ => (parseDateTime (getCellO row cols.endDateIdx)
      (some (getCellO row cols.endTimeIdx))).map (fun endTs => endTs - fallbackMs))
  ts

/-- One iteration of the data-row loop: a row yields a reading exactly when
    its usage parses and some timestamp strategy succeeds (the
    `Number.isFinite(ts.getTime())` guard never fires in this model). -/
def rowStep (oracle : String → Option ℤ) (fallbackMs : ℤ) (cols : Cols)
    (row : List String) : Option PReading :=
  match rowUsage cols row with
  | none => none
  | some kwh =>
      match resolveTs oracle fallbackMs cols row with
      | none => none
      | some ts => some { ts := ts, value := kwh }

/-- The whole data-row loop, accumulating readings in order and counting
    skipped rows. -/
def rowScan (oracle : String → Option ℤ) (fallbackMs : ℤ) (cols : Cols)
    (rows : List (List String)) : List PReading × ℕ :=
  rows.foldl (fun acc row =>
    match rowStep oracle fallbackMs cols row with
    | some r => (acc.1 ++ [r], acc.2)
    | none => (acc.1, acc.2 + 1)) ([], 0)

/-- The summing map of the normalizer: `summed.set(key, (summed.get(key) ?? 0)
    + r.value)`, keys in insertion order. -/
def upsertSum (acc : List (ℤ × ℚ)) (r : PReading) : List (ℤ × ℚ) :=
  match acc with
  | [] => [(r.ts, r.value)]
  | (t, v) :: rest =>
      if t = r.ts then (t, v + r.value) :: rest
      else (t, v) :: upsertSum rest r

/-- The normalizer shared by both parsers: sort ascending by timestamp, merge
    equal timestamps by summing values, and emit the merged entries sorted
    ascending by timestamp. -/
def normalizeReadings (readings : List PReading) : List PReading :=
  let sorted := List.insertionSort (fun a b : PReading => a.ts ≤ b.ts) readings
  let summed := sorted.foldl upsertSum []
  (List.insertionSort (fun a b : ℤ × ℚ => a.1 ≤ b.1) summed).map
    (fun e => { ts := e.1, value := e.2 })

/-- Consecutive timestamp deltas of the first elements of the normalized list. -/
def consecutiveDiffs : List PReading → List ℤ
  | a :: b :: rest => (b.ts - a.ts) :: consecutiveDiffs (b :: rest)
  | _ => []

/-- The aggregate skipped-row warning of the electricity parser. -/
def skippedWarning (n : ℕ) : String :=
  String.mk ("Skipped ".data ++ (toString n).data ++
    " row(s) that didn’t look like interval readings.".data)

/-- The aggregate skipped-row warning of the gas parser. -/
def gasSkippedWarning (n : ℕ) : String :=
  String.mk ("Skipped ".data ++ (toString n).data ++
    " row(s) that didn’t look like gas interval readings.".data)

/-- The solar net-usage informational note. -/
def solarNote : String :=
  "Detected solar IMPORT/EXPORT columns. Calculating NET usage (Import − Export) to match PG&E billing."

/-- The atypical-interval advisory of the electricity parser. -/
def intervalWarning (minutes : ℤ) : String :=
  String.mk ("Detected ~".data ++ (toString minutes).data ++
    " minute intervals (expected 15/30/60). Data may be aggregated.".data)

/-- The atypical-interval advisory of the gas parser. -/
def gasIntervalWarning (hours : ℤ) : String :=
  String.mk ("Detected ~".data ++ (toString hours).data ++
    " hour intervals (expected 1 or 24). Data may be aggregated differently.".data)

/-- The electricity interval-size heuristic: median delta over the first 2000
    gaps, rounded to minutes (`Math.round`), warned about unless 15/30/60. -/
def elecIntervalWarnings (normalized : List PReading) : List String :=
  if 3 ≤ normalized.length then
    let diffs := List.insertionSort (fun a b : ℤ => a ≤ b)
      (consecutiveDiffs (normalized.take (min normalized.length 2000)))
    let median := diffs.getD (diffs.length / 2) 0
    let minutes := Int.fdiv (median + 30000) 60000
    if minutes = 15 ∨ minutes = 30 ∨ minutes = 60 then [] else [intervalWarning minutes]
  else []

/-- The gas interval-size heuristic: first 500 gaps, rounded to hours,
    warned about unless 1 or 24. -/
def gasIntervalWarningsOf (normalized : List PReading) : List String :=
  if 3 ≤ normalized.length then
    let diffs := List.insertionSort (fun a b : ℤ => a ≤ b)
      (consecutiveDiffs (normalized.take (min normalized.length 500)))
    let median := diffs.getD (diffs.length / 2) 0
    let hours := Int.fdiv (median + 1800000) 3600000
    if hours = 1 ∨ hours = 24 then [] else [gasIntervalWarning hours]
  else []

/-- Result record of both parsers. -/
structure PgeCsvParseResult where
  readings : List PReading
  warnings : List String
deriving DecidableEq

/-- The blank-row refiltering at the top of both parse functions. -/
def cleanRows (csvText : String) : List (List String) :=
  (parseCsvRows csvText).filter (fun r => r.any (fun cell => jsTrim cell ≠ ""))

/-- The electricity header detection (`threshold 4, unit "kwh"`). -/
def elecDetect (rows : List (List String)) : Option ℕ :=
  detectHeaderRowIndex "kwh" 4 rows

/-- The gas header detection (`threshold 3, unit "therm"`). -/
def gasDetect (rows : List (List String)) : Option ℕ :=
  detectHeaderRowIndex "therm" 3 rows

/-- Trimmed and normalized headers of the detected header row. -/
def headersAt (rows : List (List String)) (hi : ℕ) : List String :=
  ((rows.getD hi []).map jsTrim).map normalizeHeader

/-- The electricity parser's resolved columns as a function of the cleaned rows. -/
def elecColsOf (rows : List (List String)) : Cols :=
  resolveElecCols (headersAt rows ((elecDetect rows).getD 0))

/-- The gas parser's resolved columns as a function of the cleaned rows. -/
def gasColsOf (rows : List (List String)) : Cols :=
  resolveGasCols (headersAt rows ((gasDetect rows).getD 0))

/-- The data rows following the header row. -/
def dataRowsAfter (rows : List (List String)) (hi : ℕ) : List (List String) :=
  rows.drop (hi + 1)

/-- The electricity row scan as a function of the oracle and raw text. -/
def elecScanOf (oracle : String → Option ℤ) (csvText : String) : List PReading × ℕ :=
  rowScan oracle (15 * 60 * 1000) (elecColsOf (cleanRows csvText))
    (dataRowsAfter (cleanRows csvText) ((elecDetect (cleanRows csvText)).getD 0))

/-- The gas row scan as a function of the oracle and raw text. -/
def gasScanOf (oracle : String → Option ℤ) (csvText : String) : List PReading × ℕ :=
  rowScan oracle (60 * 60 * 1000) (gasColsOf (cleanRows csvText))
    (dataRowsAfter (cleanRows csvText) ((gasDetect (cleanRows csvText)).getD 0))

/-- Embedding of `parsePgeIntervalCsv` from `src/services/pgeCsvParser.ts`;
    `throw` is `Except.error`.  The four sequential early-throws of the source
    appear as the four guards, phrased over the named pipeline stages (when
    the header is detected, `elecColsOf rows` is exactly
    `resolveElecCols(headers of the detected row)` of the source, and the scan
    runs over the rows after that header). -/
def parsePgeIntervalCsv (oracle : String → Option ℤ) (csvText : String) :
    Except String PgeCsvParseResult :=
  let rows := cleanRows csvText
  if rows.length < 2 then Except.error "CSV appears empty or unreadable."
  else if elecDetect rows = none then
    Except.error "Could not detect a header row with kWh interval data. If this is a Green Button export, re-export as “Interval Data (CSV)”."
  else if (elecColsOf rows).usageIdx = none then
    Except.error "Could not find a kWh/usage column in this CSV."
  else
    let cols := elecColsOf rows
    let scanned := rowScan oracle (15 * 60 * 1000) cols
      (dataRowsAfter rows ((elecDetect rows).getD 0))
    if scanned.1 = [] then
      Except.error "No interval readings were parsed from this CSV."
    else
      let normalized := normalizeReadings scanned.1
      let warnings1 := (if cols.hasSolarColumns then [solarNote] else []) ++
        (if 0 < scanned.2 then [skippedWarning scanned.2] else [])
      Except.ok { readings := normalized
                  warnings := warnings1 ++ elecIntervalWarnings normalized }

/-- Embedding of `parsePgeGasCsv` from `src/services/pgeGasCsvParser.ts`. -/
def parsePgeGasCsv (oracle : String → Option ℤ) (csvText : String) :
    Except String PgeCsvParseResult :=
  let rows := cleanRows csvText
  if rows.length < 2 then Except.error "CSV appears empty or unreadable."
  else if gasDetect rows = none then
    Except.error "Could not detect a header row with gas (therm) interval data. Make sure this is a PG&E gas Green Button export."
  else if (gasColsOf rows).usageIdx = none then
    Except.error "Could not find a therms/usage column in this CSV. Make sure this is a gas (not electric) export."
  else
    let scanned := rowScan oracle (60 * 60 * 1000) (gasColsOf rows)
      (dataRowsAfter rows ((gasDetect rows).getD 0))
    if scanned.1 = [] then
      Except.error "No gas readings were parsed from this CSV."
    else
      let normalized := normalizeReadings scanned.1
      let warnings1 := (if 0 < scanned.2 then [gasSkippedWarning scanned.2] else [])
      Except.ok { readings := normalized
                  warnings := warnings1 ++ gasIntervalWarningsOf normalized }

/-! ### C6: the normalizer emits strictly increasing merged readings -/

/-- Total summed value recorded for timestamp `t` in the summing map. -/
def sumAtKey (acc : List (ℤ × ℚ)) (t : ℤ) : ℚ :=
  ((acc.filter (fun e => e.1 = t)).map (fun e => e.2)).sum

theorem upsertSum_keys (acc : List (ℤ × ℚ)) (r : PReading) :
    (upsertSum acc r).map Prod.fst =
      (if r.ts ∈ acc.map Prod.fst then acc.map Prod.fst
       else acc.map Prod.fst ++ [r.ts]) := by
  induction acc with
  | nil => simp [upsertSum]
  | cons e rest ih =>
      obtain ⟨t, v⟩ := e
      by_cases hk : t = r.ts
      · simp [upsertSum, hk]
      · have hk' : ¬r.ts = t := fun h => hk h.symm
        simp only [upsertSum, if_neg hk, List.map_cons, ih]
        by_cases hmem : r.ts ∈ rest.map Prod.fst
        · simp [hmem, hk']
        · simp [hmem, hk']

theorem foldl_upsertSum_keys_nodup (l : List PReading) :
    ∀ acc : List (ℤ × ℚ), (acc.map Prod.fst).Nodup →
      ((l.foldl upsertSum acc).map Prod.fst).Nodup := by
  induction l with
  | nil => intro acc h; simpa using h
  | cons r rest ih =>
      intro acc h
      rw [List.foldl_cons]
      apply ih
      rw [upsertSum_keys]
      by_cases hmem : r.ts ∈ acc.map Prod.fst
      · rwa [if_pos hmem]
      · rw [if_neg hmem, List.nodup_append]
        exact ⟨h, List.nodup_singleton _, by simpa using hmem⟩

theorem foldl_upsertSum_keys_mem (l : List PReading) :
    ∀ (acc : List (ℤ × ℚ)) (t : ℤ),
      (t ∈ (l.foldl upsertSum acc).map Prod.fst ↔
        t ∈ acc.map Prod.fst ∨ t ∈ l.map (fun r => r.ts)) := by
  induction l with
  | nil => intro acc t; simp
  | cons r rest ih =>
      intro acc t
      rw [List.foldl_cons, ih, upsertSum_keys]
      by_cases hmem : r.ts ∈ acc.map Prod.fst
      · rw [if_pos hmem]
        simp only [List.map_cons, List.mem_cons]
        constructor
        · rintro (h | h)
          · exact Or.inl h
          · exact Or.inr (Or.inr h)
        · rintro (h | h | h)
          · exact Or.inl h
          · exact Or.inl (h ▸ hmem)
          · exact Or.inr h
      · rw [if_neg hmem]
        simp only [List.mem_append, List.mem_singleton, List.map_cons, List.mem_cons]
        tauto

theorem upsertSum_sumAt (acc : List (ℤ × ℚ)) (r : PReading) (t : ℤ) :
    sumAtKey (upsertSum acc r) t =
      sumAtKey acc t + (if r.ts = t then r.value else 0) := by
  induction acc with
  | nil =>
      by_cases hk : r.ts = t
      · simp [upsertSum, sumAtKey, hk]
      · simp [upsertSum, sumAtKey, hk]
  | cons e rest ih =>
      obtain ⟨t', v⟩ := e
      by_cases hk : t' = r.ts
      · by_cases hkt : t' = t
        · have ht : r.ts = t := hk ▸ hkt
          simp [upsertSum, sumAtKey, hk, hkt, ht]
          try ring
        · have ht : ¬r.ts = t := fun h => hkt (hk.symm ▸ h)
          simp [upsertSum, sumAtKey, hk, hkt, ht]
      · by_cases hkt : t' = t
        · have ht : ¬r.ts = t := fun h => hk (by rw [hkt, ← h])
          simp only [upsertSum, if_neg hk]
          simp only [sumAtKey, List.filter_cons, hkt]
          simp only [sumAtKey] at ih
          simp [ih, ht]
          try ring
        · simp only [upsertSum, if_neg hk]
          simp only [sumAtKey, List.filter_cons]
          simp only [decide_eq_true_eq]
          rw [if_neg hkt, if_neg hkt]
          simpa [sumAtKey] using ih

theorem foldl_upsertSum_sumAt (l : List PReading) :
    ∀ (acc : List (ℤ × ℚ)) (t : ℤ),
      sumAtKey (l.foldl upsertSum acc) t =
        sumAtKey acc t + ((l.filter (fun r => r.ts = t)).map (fun r => r.value)).sum := by
  induction l with
  | nil => intro acc t; simp
  | cons r rest ih =>
      intro acc t
      rw [List.foldl_cons, ih, upsertSum_sumAt]
      by_cases hk : r.ts = t
      · simp [List.filter_cons, hk]
        ring
      · simp [List.filter_cons, hk]

theorem filterMapConv (l' : List (ℤ × ℚ)) (t : ℤ) :
    (((l'.map (fun e => ({ ts := e.1, value := e.2 } : PReading))).filter
      (fun r => r.ts = t)).map (fun r => r.value)).sum = sumAtKey l' t := by
  induction l' with
  | nil => simp [sumAtKey]
  | cons e rest ih =>
      by_cases h : e.1 = t
      · simp only [sumAtKey, List.map_cons, List.filter_cons] at ih ⊢
        simp [h] at ih ⊢
        rw [ih]
      · simp only [sumAtKey, List.map_cons, List.filter_cons] at ih ⊢
        simp [h] at ih ⊢
        rw [ih]

theorem sum_filter_map_perm {α : Type _} (f : α → ℚ) (p : α → Bool)
    {l1 l2 : List α} (h : l1.Perm l2) :
    ((l1.filter p).map f).sum = ((l2.filter p).map f).sum :=
  ((h.filter p).map f).sum_eq

theorem mem_map_perm {α β : Type _} (f : α → β) {l1 l2 : List α} (h : l1.Perm l2)
    (b : β) : b ∈ l1.map f ↔ b ∈ l2.map f :=
  (h.map f).mem_iff

theorem normalizeReadings_chain (l : List PReading) :
    List.Chain' (fun a b => a.ts < b.ts) (normalizeReadings l) := by
  unfold normalizeReadings
  haveI i1 : IsTotal (ℤ × ℚ) (fun a b => a.1 ≤ b.1) := ⟨fun a b => le_total a.1 b.1⟩
  haveI i2 : IsTrans (ℤ × ℚ) (fun a b => a.1 ≤ b.1) := ⟨fun a b c hab hbc => le_trans hab hbc⟩
  haveI i3 : IsTrans PReading (fun a b => a.ts < b.ts) := ⟨fun a b c hab hbc => lt_trans hab hbc⟩
  have hsorted : List.Sorted (fun a b : ℤ × ℚ => a.1 ≤ b.1)
      (List.insertionSort (fun a b : ℤ × ℚ => a.1 ≤ b.1)
        ((List.insertionSort (fun a b : PReading => a.ts ≤ b.ts) l).foldl upsertSum [])) :=
    List.sorted_insertionSort _ _
  have hnodup0 : ((((List.insertionSort (fun a b : PReading => a.ts ≤ b.ts) l).foldl
      upsertSum [])).map Prod.fst).Nodup :=
    foldl_upsertSum_keys_nodup _ [] (by simp)
  have hperm := List.perm_insertionSort (fun a b : ℤ × ℚ => a.1 ≤ b.1)
    ((List.insertionSort (fun a b : PReading => a.ts ≤ b.ts) l).foldl upsertSum [])
  have hnodup : ((List.insertionSort (fun a b : ℤ × ℚ => a.1 ≤ b.1)
      ((List.insertionSort (fun a b : PReading => a.ts ≤ b.ts) l).foldl
        upsertSum [])).map Prod.fst).Nodup :=
    ((hperm.map Prod.fst).nodup_iff).mpr hnodup0
  have hpne := (List.pairwise_map.mp hnodup)
  have hplt := (hsorted.and hpne).imp
    (fun h => lt_of_le_of_ne h.1 h.2)
  rw [List.chain'_iff_pairwise, List.pairwise_map]
  exact hplt

theorem normalizeReadings_sumAt (l : List PReading) (t : ℤ) :
    (((normalizeReadings l).filter (fun r => r.ts = t)).map (fun r => r.value)).sum =
      ((l.filter (fun r => r.ts = t)).map (fun r => r.value)).sum := by
  unfold normalizeReadings
  rw [filterMapConv]
  have hperm := List.perm_insertionSort (fun a b : ℤ × ℚ => a.1 ≤ b.1)
    ((List.insertionSort (fun a b : PReading => a.ts ≤ b.ts) l).foldl upsertSum [])
  have h1 : sumAtKey (List.insertionSort (fun a b : ℤ × ℚ => a.1 ≤ b.1)
      ((List.insertionSort (fun a b : PReading => a.ts ≤ b.ts) l).foldl upsertSum [])) t =
      sumAtKey ((List.insertionSort (fun a b : PReading => a.ts ≤ b.ts) l).foldl
        upsertSum []) t :=
    sum_filter_map_perm _ _ hperm
  rw [h1, foldl_upsertSum_sumAt (List.insertionSort (fun a b : PReading => a.ts ≤ b.ts) l) [] t]
  have h0 : sumAtKey ([] : List (ℤ × ℚ)) t = 0 := by simp [sumAtKey]
  rw [h0, zero_add]
  exact sum_filter_map_perm (fun r => r.value) (fun r => decide (r.ts = t))
    (List.perm_insertionSort (fun a b : PReading => a.ts ≤ b.ts) l)

theorem normalizeReadings_mem (l : List PReading) (t : ℤ) :
    t ∈ (normalizeReadings l).map (fun r => r.ts) ↔ t ∈ l.map (fun r => r.ts) := by
  unfold normalizeReadings
  rw [List.map_map]
  have hperm := List.perm_insertionSort (fun a b : ℤ × ℚ => a.1 ≤ b.1)
    ((List.insertionSort (fun a b : PReading => a.ts ≤ b.ts) l).foldl upsertSum [])
  have h1 : t ∈ (List.insertionSort (fun a b : ℤ × ℚ => a.1 ≤ b.1)
      ((List.insertionSort (fun a b : PReading => a.ts ≤ b.ts) l).foldl
        upsertSum [])).map Prod.fst ↔
      t ∈ (((List.insertionSort (fun a b : PReading => a.ts ≤ b.ts) l).foldl
        upsertSum [])).map Prod.fst := mem_map_perm Prod.fst hperm t
  have h2 := foldl_upsertSum_keys_mem
    (List.insertionSort (fun a b : PReading => a.ts ≤ b.ts) l) [] t
  have h3 := mem_map_perm (fun r : PReading => r.ts)
    (List.perm_insertionSort (fun a b : PReading => a.ts ≤ b.ts) l) t
  show t ∈ (List.insertionSort (fun a b : ℤ × ℚ => a.1 ≤ b.1)
      ((List.insertionSort (fun a b : PReading => a.ts ≤ b.ts) l).foldl
        upsertSum [])).map Prod.fst ↔ _
  rw [h1, h2]
  simp only [List.map_nil, List.not_mem_nil, false_or]
  exact h3

/-- Shape of a successful electricity parse: the readings are the normalized
    row scan and the warnings are solar note, aggregate skip warning and
    interval advisory, in that order. -/
theorem elecParse_ok (oracle : String → Option ℤ) (csvText : String)
    (res : PgeCsvParseResult) (h : parsePgeIntervalCsv oracle csvText = Except.ok res) :
    res.readings = normalizeReadings (elecScanOf oracle csvText).1 ∧
    res.warnings =
      ((if (elecColsOf (cleanRows csvText)).hasSolarColumns then [solarNote] else []) ++
        (if 0 < (elecScanOf oracle csvText).2 then
          [skippedWarning (elecScanOf oracle csvText).2] else [])) ++
      elecIntervalWarnings (normalizeReadings (elecScanOf oracle csvText).1) := by
  simp only [parsePgeIntervalCsv] at h
  split at h
  · cases h
  · split at h
    · cases h
    · split at h
      · cases h
      · split at h
        · cases h
        · injection h with h2
          rw [← h2]
          exact ⟨rfl, rfl⟩

/-- Shape of a successful gas parse. -/
theorem gasParse_ok (oracle : String → Option ℤ) (csvText : String)
    (res : PgeCsvParseResult) (h : parsePgeGasCsv oracle csvText = Except.ok res) :
    res.readings = normalizeReadings (gasScanOf oracle csvText).1 ∧
    res.warnings =
      (if 0 < (gasScanOf oracle csvText).2 then
        [gasSkippedWarning (gasScanOf oracle csvText).2] else []) ++
      gasIntervalWarningsOf (normalizeReadings (gasScanOf oracle csvText).1) := by
  simp only [parsePgeGasCsv] at h
  split at h
  · cases h
  · split at h
    · cases h
    · split at h
      · cases h
      · split at h
        · cases h
        · injection h with h2
          rw [← h2]
          exact ⟨rfl, rfl⟩

/-- C6: the normalized reading stream returned by either parser has strictly
    increasing (hence unique) timestamps; every group of raw parsed readings
    sharing one timestamp is merged into a single reading carrying the
    group's summed value; no timestamps are invented or dropped; and values
    are not clamped, so a merged value may be negative. -/
theorem c6_normalized_stream :
    (∀ l : List PReading, List.Chain' (fun a b => a.ts < b.ts) (normalizeReadings l)) ∧
    (∀ (l : List PReading) (t : ℤ),
      (((normalizeReadings l).filter (fun r => r.ts = t)).map (fun r => r.value)).sum =
        ((l.filter (fun r => r.ts = t)).map (fun r => r.value)).sum) ∧
    (∀ (l : List PReading) (t : ℤ),
      t ∈ (normalizeReadings l).map (fun r => r.ts) ↔ t ∈ l.map (fun r => r.ts)) ∧
    (∀ (oracle : String → Option ℤ) (csvText : String) (res : PgeCsvParseResult),
      parsePgeIntervalCsv oracle csvText = Except.ok res →
      res.readings = normalizeReadings (elecScanOf oracle csvText).1) ∧
    (∀ (oracle : String → Option ℤ) (csvText : String) (res : PgeCsvParseResult),
      parsePgeGasCsv oracle csvText = Except.ok res →
      res.readings = normalizeReadings (gasScanOf oracle csvText).1) ∧
    normalizeReadings [{ ts := 0, value := 2 }, { ts := 0, value := -(5/2) }] =
      [{ ts := 0, value := -(1/2) }] := by
  refine ⟨normalizeReadings_chain, normalizeReadings_sumAt, normalizeReadings_mem,
    ?_, ?_, ?_⟩
  · intro oracle csvText res h
    exact (elecParse_ok oracle csvText res h).1
  · intro oracle csvText res h
    exact (gasParse_ok oracle csvText res h).1
  · norm_num [normalizeReadings, upsertSum, List.insertionSort, List.orderedInsert]

/-! ### C7: the four fatal parse errors and the header-score thresholds -/

/-- Row qualification used by the header scan: at least 3 non-empty trimmed
    cells. -/
def qualifies (p : ℕ × List String) : Prop :=
  3 ≤ ((p.2.map jsTrim).filter (fun c => c ≠ "")).length

instance (p : ℕ × List String) : Decidable (qualifies p) := by
  unfold qualifies
  infer_instance

theorem detect_fold_invariant (unitKw : String) (scan : List (ℕ × List String)) :
    ∀ best : Option ℕ × ℕ,
      best.2 ≤ (scan.foldl (detectStep unitKw) best).2 ∧
      (∀ p ∈ scan, qualifies p →
        scoreHeaderRow unitKw (p.2.map jsTrim) ≤ (scan.foldl (detectStep unitKw) best).2) ∧
      ((scan.foldl (detectStep unitKw) best).2 = best.2 ∨
        ∃ p ∈ scan, qualifies p ∧
          scoreHeaderRow unitKw (p.2.map jsTrim) = (scan.foldl (detectStep unitKw) best).2) ∧
      ((scan.foldl (detectStep unitKw) best).1 = none →
        scan.foldl (detectStep unitKw) best = best) := by
  induction scan with
  | nil =>
      intro best
      exact ⟨le_refl _, by simp, Or.inl rfl, fun _ => rfl⟩
  | cons p rest ih =>
      intro best
      rw [List.foldl_cons]
      obtain ⟨ihA, ihB, ihC, ihD⟩ := ih (detectStep unitKw best p)
      have hstep : detectStep unitKw best p = best ∨
          (qualifies p ∧ detectStep unitKw best p =
            (some p.1, scoreHeaderRow unitKw (p.2.map jsTrim)) ∧
            best.2 < scoreHeaderRow unitKw (p.2.map jsTrim)) := by
        unfold detectStep
        by_cases hq : ((p.2.map jsTrim).filter (fun c => c ≠ "")).length < 3
        · rw [if_pos hq]
          exact Or.inl rfl
        · rw [if_neg hq]
          by_cases hs : best.2 < scoreHeaderRow unitKw (p.2.map jsTrim)
          · rw [if_pos hs]
            exact Or.inr ⟨by unfold qualifies; omega, rfl, hs⟩
          · rw [if_neg hs]
            exact Or.inl rfl
      have hstep2 : best.2 ≤ (detectStep unitKw best p).2 := by
        rcases hstep with h | ⟨_, h, hlt⟩
        · rw [h]
        · rw [h]
          exact le_of_lt hlt
      refine ⟨le_trans hstep2 ihA, ?_, ?_, ?_⟩
      · intro q hq hqual
        rcases List.mem_cons.mp hq with hq | hq
        · subst hq
          rcases hstep with h | ⟨_, h, _⟩
          · have hq3 : ¬((q.2.map jsTrim).filter (fun c => c ≠ "")).length < 3 := by
              unfold qualifies at hqual
              omega
            unfold detectStep at h
            rw [if_neg hq3] at h
            by_cases hs : best.2 < scoreHeaderRow unitKw (q.2.map jsTrim)
            · rw [if_pos hs] at h
              have hsc : scoreHeaderRow unitKw (q.2.map jsTrim) = best.2 := by
                have h2 := congrArg Prod.snd h
                simpa using h2
              exact le_trans (le_of_eq hsc) (le_trans hstep2 ihA)
            · exact le_trans (le_trans (not_lt.mp hs) hstep2) ihA
          · rw [h] at ihA ⊢
            exact ihA
        · exact ihB q hq hqual
      · rcases ihC with h | ⟨q, hq, hqual, hscore⟩
        · rcases hstep with hs | ⟨hqual, hs, _⟩
          · rw [hs] at h ⊢
            exact Or.inl h
          · refine Or.inr ⟨p, by simp, hqual, ?_⟩
            rw [h, hs]
        · exact Or.inr ⟨q, by simp [hq], hqual, hscore⟩
      · intro hnone
        have hres := ihD hnone
        rcases hstep with hs | ⟨_, hs, _⟩
        · rw [hres, hs]
        · exfalso
          rw [hres, hs] at hnone
          simp at hnone

/-- With a positive threshold, the header detector fails exactly when no
    scanned row with at least 3 non-empty cells reaches the threshold. -/
theorem detect_none_iff (unitKw : String) (threshold : ℕ) (hth : 0 < threshold)
    (rows : List (List String)) :
    detectHeaderRowIndex unitKw threshold rows = none ↔
      ∀ p ∈ (rows.take 80).enum, qualifies p →
        scoreHeaderRow unitKw (p.2.map jsTrim) < threshold := by
  obtain ⟨hA, hB, hC, hD⟩ := detect_fold_invariant unitKw ((rows.take 80).enum) (none, 0)
  unfold detectHeaderRowIndex
  constructor
  · intro h p hp hq
    by_cases hbs : threshold ≤ (((rows.take 80).enum).foldl (detectStep unitKw) (none, 0)).2
    · rw [if_pos hbs] at h
      have hres := hD h
      rw [hres] at hbs
      exact absurd hbs (by omega)
    · exact lt_of_le_of_lt (hB p hp hq) (not_le.mp hbs)
  · intro hall
    by_cases hbs : threshold ≤ (((rows.take 80).enum).foldl (detectStep unitKw) (none, 0)).2
    · exfalso
      rcases hC with h0 | ⟨p, hp, hq, hscore⟩
      · rw [h0] at hbs
        omega
      · have := hall p hp hq
        omega
    · rw [if_neg hbs]

/-- C7: `parsePgeIntervalCsv` fails exactly in four cases — fewer than 2
    non-blank rows, no detected header (no scanned row with 3 or more
    non-empty cells scores at least 4), no kWh/usage column, or zero parsed
    readings — and otherwise returns a result without throwing; the gas
    parser has the same four cases with header threshold 3. -/
theorem c7_fatal_cases :
    (∀ (oracle : String → Option ℤ) (csvText : String),
      (∃ e, parsePgeIntervalCsv oracle csvText = Except.error e) ↔
        ((cleanRows csvText).length < 2 ∨
         elecDetect (cleanRows csvText) = none ∨
         (elecColsOf (cleanRows csvText)).usageIdx = none ∨
         (elecScanOf oracle csvText).1 = [])) ∧
    (∀ rows : List (List String), elecDetect rows = none ↔
      ∀ p ∈ (rows.take 80).enum, qualifies p →
        scoreHeaderRow "kwh" (p.2.map jsTrim) < 4) ∧
    (∀ rows : List (List String), gasDetect rows = none ↔
      ∀ p ∈ (rows.take 80).enum, qualifies p →
        scoreHeaderRow "therm" (p.2.map jsTrim) < 3) ∧
    (∀ (oracle : String → Option ℤ) (csvText : String),
      (∃ e, parsePgeGasCsv oracle csvText = Except.error e) ↔
        ((cleanRows csvText).length < 2 ∨
         gasDetect (cleanRows csvText) = none ∨
         (gasColsOf (cleanRows csvText)).usageIdx = none ∨
         (gasScanOf oracle csvText).1 = [])) := by
  refine ⟨?_, ?_, ?_, ?_⟩
  · intro oracle csvText
    simp only [parsePgeIntervalCsv]
    by_cases h1 : (cleanRows csvText).length < 2
    · simp [h1]
    · rw [if_neg h1]
      by_cases h2 : elecDetect (cleanRows csvText) = none
      · simp [h1, h2]
      · rw [if_neg h2]
        by_cases h3 : (elecColsOf (cleanRows csvText)).usageIdx = none
        · simp [h1, h2, h3]
        · rw [if_neg h3]
          by_cases h4 : (elecScanOf oracle csvText).1 = []
          · have h4' : (rowScan oracle 900000 (elecColsOf (cleanRows csvText))
                (dataRowsAfter (cleanRows csvText)
                  ((elecDetect (cleanRows csvText)).getD 0))).1 = [] := h4
            simp [h1, h2, h3, h4, h4']
          · have h4' : ¬(rowScan oracle 900000 (elecColsOf (cleanRows csvText))
                (dataRowsAfter (cleanRows csvText)
                  ((elecDetect (cleanRows csvText)).getD 0))).1 = [] := h4
            simp [h1, h2, h3, h4, h4']
  · intro rows
    exact detect_none_iff "kwh" 4 (by norm_num) rows
  · intro rows
    exact detect_none_iff "therm" 3 (by norm_num) rows
  · intro oracle csvText
    simp only [parsePgeGasCsv]
    by_cases h1 : (cleanRows csvText).length < 2
    · simp [h1]
    · rw [if_neg h1]
      by_cases h2 : gasDetect (cleanRows csvText) = none
      · simp [h1, h2]
      · rw [if_neg h2]
        by_cases h3 : (gasColsOf (cleanRows csvText)).usageIdx = none
        · simp [h1, h2, h3]
        · rw [if_neg h3]
          by_cases h4 : (gasScanOf oracle csvText).1 = []
          · have h4' : (rowScan oracle 3600000 (gasColsOf (cleanRows csvText))
                (dataRowsAfter (cleanRows csvText)
                  ((gasDetect (cleanRows csvText)).getD 0))).1 = [] := h4
            simp [h1, h2, h3, h4, h4']
          · have h4' : ¬(rowScan oracle 3600000 (gasColsOf (cleanRows csvText))
                (dataRowsAfter (cleanRows csvText)
                  ((gasDetect (cleanRows csvText)).getD 0))).1 = [] := h4
            simp [h1, h2, h3, h4, h4']

/-! ### C8: row-level defects are skipped and counted, never fatal -/

theorem rowScan_foldl_spec (oracle : String → Option ℤ) (fallbackMs : ℤ) (cols : Cols) :
    ∀ (rows : List (List String)) (acc : List PReading × ℕ),
      rows.foldl (fun acc row =>
        match rowStep oracle fallbackMs cols row with
        | some r => (acc.1 ++ [r], acc.2)
        | none => (acc.1, acc.2 + 1)) acc =
      (acc.1 ++ rows.filterMap (rowStep oracle fallbackMs cols),
       acc.2 + rows.countP (fun row => (rowStep oracle fallbackMs cols row).isNone)) := by
  intro rows
  induction rows with
  | nil => intro acc; simp
  | cons row rest ih =>
      intro acc
      rw [List.foldl_cons]
      cases hstep : rowStep oracle fallbackMs cols row with
      | some r =>
          simp only [hstep]
          rw [ih]
          simp [List.filterMap_cons, List.countP_cons, hstep]
      | none =>
          simp only [hstep]
          rw [ih]
          simp [List.filterMap_cons, List.countP_cons, hstep]
          omega

theorem skippedWarning_ne_solarNote (n : ℕ) : skippedWarning n ≠ solarNote := by
  intro h
  have h1 : (skippedWarning n).data.head? = some 'S' := rfl
  have h2 : solarNote.data.head? = some 'D' := rfl
  rw [h, h2] at h1
  simp at h1

theorem skippedWarning_ne_intervalWarning (n : ℕ) (m : ℤ) :
    skippedWarning n ≠ intervalWarning m := by
  intro h
  have h1 : (skippedWarning n).data.head? = some 'S' := rfl
  have h2 : (intervalWarning m).data.head? = some 'D' := rfl
  rw [h, h2] at h1
  simp at h1

theorem count_elecIntervalWarnings (n : ℕ) (l : List PReading) :
    (elecIntervalWarnings l).count (skippedWarning n) = 0 := by
  unfold elecIntervalWarnings
  split
  · dsimp only
    split
    · rfl
    · simp [List.count_cons, skippedWarning_ne_intervalWarning n]
  · rfl

theorem rowScan_go_length (oracle : String → Option ℤ) (fallbackMs : ℤ)
    (cols : Cols) : ∀ (rows : List (List String)) (acc : List PReading × ℕ),
    ((rows.foldl (fun acc row =>
        match rowStep oracle fallbackMs cols row with
        | some r => (acc.1 ++ [r], acc.2)
        | none => (acc.1, acc.2 + 1)) acc).1.length +
      (rows.foldl (fun acc row =>
        match rowStep oracle fallbackMs cols row with
        | some r => (acc.1 ++ [r], acc.2)
        | none => (acc.1, acc.2 + 1)) acc).2) =
      acc.1.length + acc.2 + rows.length := by
  intro rows
  induction rows with
  | nil => intro acc; simp
  | cons row rest ih =>
      intro acc
      rw [List.foldl_cons]
      cases hstep : rowStep oracle fallbackMs cols row with
      | some r =>
          simp only [hstep]
          rw [ih]
          simp
          omega
      | none =>
          simp only [hstep]
          rw [ih]
          simp
          omega

/-- C8: every data row either yields a reading or is skipped and counted —
    `rowScan` returns exactly the rows on which `rowStep` succeeds, in order,
    and counts the rest, so `#readings + #skipped = #rows`; a row is skipped
    exactly when its usage is unparsable or no timestamp strategy succeeds;
    in solar net-usage mode the usage is always `import - export` (never
    unparsable); and a successful electricity parse surfaces the skips as
    exactly one aggregate warning when any row was skipped, none otherwise. -/
theorem c8_row_level_skips :
    (∀ (oracle : String → Option ℤ) (fallbackMs : ℤ) (cols : Cols)
        (rows : List (List String)),
      rowScan oracle fallbackMs cols rows =
        (rows.filterMap (rowStep oracle fallbackMs cols),
         rows.countP (fun row => (rowStep oracle fallbackMs cols row).isNone)) ∧
      (rowScan oracle fallbackMs cols rows).1.length +
        (rowScan oracle fallbackMs cols rows).2 = rows.length) ∧
    (∀ (oracle : String → Option ℤ) (fallbackMs : ℤ) (cols : Cols)
        (row : List String),
      rowStep oracle fallbackMs cols row = none ↔
        (rowUsage cols row = none ∨ resolveTs oracle fallbackMs cols row = none)) ∧
    (∀ (cols : Cols) (row : List String), cols.hasSolarColumns = true →
      rowUsage cols row =
        some ((parseNumber (getCellO row cols.importIdx)).getD 0 -
          (parseNumber (getCellO row cols.exportIdx)).getD 0)) ∧
    (∀ (oracle : String → Option ℤ) (csvText : String) (res : PgeCsvParseResult),
      parsePgeIntervalCsv oracle csvText = Except.ok res →
      res.warnings.count (skippedWarning (elecScanOf oracle csvText).2) =
        (if 0 < (elecScanOf oracle csvText).2 then 1 else 0)) := by
  refine ⟨?_, ?_, ?_, ?_⟩
  · intro oracle fallbackMs cols rows
    have hspec := rowScan_foldl_spec oracle fallbackMs cols rows ([], 0)
    have heq : rowScan oracle fallbackMs cols rows =
        (rows.filterMap (rowStep oracle fallbackMs cols),
         rows.countP (fun row => (rowStep oracle fallbackMs cols row).isNone)) := by
      rw [rowScan, hspec]
      simp
    refine ⟨heq, ?_⟩
    have hlen := rowScan_go_length oracle fallbackMs cols rows ([], 0)
    simpa [rowScan] using hlen
  · intro oracle fallbackMs cols row
    unfold rowStep
    cases hu : rowUsage cols row with
    | none => simp
    | some kwh =>
        cases ht : resolveTs oracle fallbackMs cols row with
        | none => simp [ht]
        | some ts => simp [ht]
  · intro cols row hsolar
    unfold rowUsage
    rw [if_pos hsolar]
  · intro oracle csvText res h
    obtain ⟨-, hw⟩ := elecParse_ok oracle csvText res h
    rw [hw]
    rw [List.count_append, List.count_append]
    have hsol : (if (elecColsOf (cleanRows csvText)).hasSolarColumns then [solarNote]
        else []).count (skippedWarning (elecScanOf oracle csvText).2) = 0 := by
      split
      · simp [List.count_cons, skippedWarning_ne_solarNote]
      · rfl
    have hint := count_elecIntervalWarnings (elecScanOf oracle csvText).2
      (normalizeReadings (elecScanOf oracle csvText).1)
    rw [hsol, hint]
    split
    · simp [List.count_cons]
    · rfl

/-- A PG&E-style interval export with a duplicated timestamp and one junk row. -/
def c6Csv : String :=
  "Start Date,Start Time,Usage (kWh)\n01/18/2025,00:15,1.2\n01/18/2025,00:15,1.2\ngarbage,notatime,xx\n"

/-- A small gas export with two hourly readings. -/
def c6GasCsv : String :=
  "Start Date,Start Time,Usage (Therms)\n01/18/2025,00:00,0.5\n01/18/2025,01:00,0.7\n"

/-- Oracle modelling a host whose native `new Date(string)` parser accepts
    none of the cell contents (every strategy then uses the explicit parsers). -/
def noOracle : String → Option ℤ := fun _ => none

theorem c6_normalized_stream_witness :
    (∃ res, parsePgeIntervalCsv noOracle c6Csv = Except.ok res ∧
      res.readings = normalizeReadings (elecScanOf noOracle c6Csv).1) ∧
    (∃ res, parsePgeGasCsv noOracle c6GasCsv = Except.ok res ∧
      res.readings = normalizeReadings (gasScanOf noOracle c6GasCsv).1) :=
  ⟨⟨_, rfl, c6_normalized_stream.2.2.2.1 noOracle c6Csv _ rfl⟩,
   ⟨_, rfl, c6_normalized_stream.2.2.2.2.1 noOracle c6GasCsv _ rfl⟩⟩

/-- Column assignment of a solar export (`IMPORT (kWh)` then `EXPORT (kWh)`). -/
def c8SolarCols : Cols :=
  { importIdx := some 0, exportIdx := some 1, usageIdx := some 0
    startDateIdx := none, startTimeIdx := none, endDateIdx := none, endTimeIdx := none
    startDateTimeIdx := none, endDateTimeIdx := none, dateIdx := none, timeIdx := none
    hasSolarColumns := true }

theorem c8_row_level_skips_witness :
    rowUsage c8SolarCols ["2.0", "0.5"] =
      some ((parseNumber (getCellO ["2.0", "0.5"] c8SolarCols.importIdx)).getD 0 -
        (parseNumber (getCellO ["2.0", "0.5"] c8SolarCols.exportIdx)).getD 0) ∧
    (∃ res, parsePgeIntervalCsv noOracle c6Csv = Except.ok res ∧
      res.warnings.count (skippedWarning (elecScanOf noOracle c6Csv).2) =
        (if 0 < (elecScanOf noOracle c6Csv).2 then 1 else 0)) :=
  ⟨c8_row_level_skips.2.2.1 c8SolarCols ["2.0", "0.5"] rfl,
   ⟨_, rfl, c8_row_level_skips.2.2.2 noOracle c6Csv _ rfl⟩⟩
